import Mathlib

/-!
# Hybrid server (index.js): in-memory store, write-behind queue and sync engine

A shallow embedding of the engine of `src/index.js`.

Modelling conventions.

* JavaScript objects live on a heap and are handled through references, because
  `queueJob` stores the very object it was given both in `DB[sheet]` and in the
  queued job, and `Object.assign` mutates objects in place.
* An object is the finite map of its own properties (`String → Option Val`);
  property enumeration order is never observed by the embedded code. Names
  inherited from `Object.prototype` are outside the model.
* Property values, key values and grid cells are primitive values (`Val`).
  A payload (`data`) is an object reference or nullish (`none`).
* An `async` function is split at its suspension points: the synchronous part
  that runs inside the call, and the continuation that runs when the awaited
  remote operation settles. Outcomes of remote operations are supplied by the
  environment.
* The guarded read routes (`waitForDb`) and the remote worksheets are layered
  on the engine state (`Server`, `System`). The operations of the
  google-spreadsheet client are not repository code; they are modelled from
  the spec and marked as such.
-/

namespace HybridServer

/-! ## Values, objects, heap -/

/-- Primitive JavaScript values that occur as property values and key values. -/
inductive Val where
  | undefined
  | null
  | str (s : String)
  deriving DecidableEq

/-- Conversion of a value used in a computed member access (`i[keyField]`) to a property name. -/
def toPropertyKey : Val → String
  | Val.undefined => "undefined"
  | Val.null => "null"
  | Val.str s => s

/-- A plain object: the map of its own properties. -/
abbrev Obj := String → Option Val

/-- The object literal with no properties. -/
def emptyObj : Obj := fun _ => none

/-- Property read `o[k]`: an absent property reads as `undefined`. -/
def getProp (o : Obj) (k : String) : Val := (o k).getD Val.undefined

/-- Property write `o[k] = v`. -/
def setProp (o : Obj) (k : String) (v : Val) : Obj :=
  fun k' => if k' = k then some v else o k'

/-- The object built by `Object.assign(target, source)`: every own property of
`source` is written to `target`, the other properties of `target` stay. -/
def objectAssign (target source : Obj) : Obj :=
  fun k => match source k with
    | some v => some v
    | none => target k

/-- An object literal with the listed properties, written in order. -/
def objLit (l : List (String × Val)) : Obj :=
  l.foldl (fun o p => setProp o p.1 p.2) emptyObj

/-- Object references. -/
abbrev Ref := Nat

/-- The heap of objects. -/
abbrev Heap := Ref → Obj

/-- In-place replacement of the object at `r`. -/
def Heap.write (h : Heap) (r : Ref) (o : Obj) : Heap :=
  fun x => if x = r then o else h x

/-- Allocation of fresh objects at consecutive references starting at `n`;
returns the new heap, the next free reference and the array of the new objects. -/
def allocObjs : Heap → Nat → List Obj → Heap × Nat × List (Option Ref)
  | h, n, [] => (h, n, [])
  | h, n, o :: os =>
    let r := allocObjs (Heap.write h n o) (n + 1) os
    (r.1, r.2.1, some n :: r.2.2)

/-- Errors raised by the JavaScript runtime or by a remote call. -/
inductive JsError where
  | typeError
  | remoteError
  deriving DecidableEq

/-! ## Sync engine: grid conversion -/

/-- A row of cells as returned by the bulk read. -/
abbrev Row := List String

/-- The expression `row[index] || ''`. -/
def cellOr (row : Row) (index : Nat) : String :=
  match row.get? index with
  | some c => if c = "" then "" else c
  | none => ""

/-- The function `arrayToObjects(values, headers)` of index.js; `values` is
`none` when the grid is absent from the response. -/
def arrayToObjects (values : Option (List Row)) (headers : List String) : List Obj :=
  match values with
  | none => []
  | some values =>
    if values.length < 2 then []
    else
      (values.drop 1).map fun row =>
        headers.enum.foldl
          (fun obj (p : Nat × String) => setProp obj p.2 (Val.str (cellOr row p.1)))
          emptyObj

/-! ## Global state -/

/-- The header literal of the Users sheet (identical in `syncDatabase` and `queueJob`). -/
def usersHeaders : List String :=
  ["UserID", "Name", "Role", "Subdivision", "Station", "Email", "AuthKey"]

/-- The header literal of the Stations sheet. -/
def stationsHeaders : List String := ["Subdivision", "Stations"]

/-- The header literal of the Tasks sheet. -/
def tasksHeaders : List String :=
  ["TaskID", "SheetLink", "SheetType", "AssignedTo", "Status", "Date", "TaskName",
   "DueDate", "AllowNil", "IsNil", "GroupName", "CompletedDate"]

/-- The header literal of the Groups sheet. -/
def groupsHeaders : List String := ["GroupID", "GroupName", "CreatedBy", "UserIDs"]

/-- The object `DB`: four arrays whose elements are object references, or
nullish when `queueJob` was asked to add a nullish payload. -/
structure DBStore where
  Users : List (Option Ref)
  Stations : List (Option Ref)
  Tasks : List (Option Ref)
  Groups : List (Option Ref)
  deriving DecidableEq

/-- The member access `DB[sheet]`; `none` when `DB` has no such array. -/
def DBStore.get (db : DBStore) (sheet : String) : Option (List (Option Ref)) :=
  if sheet = "Users" then some db.Users
  else if sheet = "Stations" then some db.Stations
  else if sheet = "Tasks" then some db.Tasks
  else if sheet = "Groups" then some db.Groups
  else none

/-- The assignment `DB[sheet] = l` for one of the four arrays. -/
def DBStore.set (db : DBStore) (sheet : String) (l : List (Option Ref)) : DBStore :=
  if sheet = "Users" then { db with Users := l }
  else if sheet = "Stations" then { db with Stations := l }
  else if sheet = "Tasks" then { db with Tasks := l }
  else if sheet = "Groups" then { db with Groups := l }
  else db

/-- A queued job `{ type, sheet, data, keyField, keyValue, headers }`. -/
structure Job where
  type : String
  sheet : String
  data : Option Ref
  keyField : Val
  keyValue : Val
  headers : List String
  deriving DecidableEq

/-- Where the loop of `processWriteQueue` is suspended. -/
inductive WorkerPc where
  /-- No loop is running. -/
  | idle
  /-- Inside the `try` block of the iteration for `job`, at an `await` of
  `getSheet`, `addRow`, `getRows`, `save` or `delete`. -/
  | remoteOp (job : Job)
  /-- At the `await` of the 300 ms timer that ends the `try` block. -/
  | delay
  deriving DecidableEq

/-- The promise returned by a call of the `async` function `syncDatabase`. -/
inductive Promise where
  | pending
  | settled
  deriving DecidableEq

/-- The module-level variables of index.js, the heap, the suspended worker and
a count of the bulk reads issued so far. -/
structure State where
  heap : Heap
  nextRef : Nat
  DB : DBStore
  isDbReady : Bool
  dbReadyPromise : Option Promise
  WRITE_QUEUE : List Job
  isProcessingQueue : Bool
  isSyncing : Bool
  worker : WorkerPc
  bulkReads : Nat

/-- The records of a collection: the objects its array refers to. -/
def State.records (s : State) (sheet : String) : Option (List (Option Obj)) :=
  (s.DB.get sheet).map fun l => l.map fun e => e.map s.heap

/-! ## Write path: `queueJob` and the worker -/

/-- The call `arr.find(i => i[keyField] === keyValue)`: the first element whose
property equals the key value, `none` for `undefined`. Reading a property of a
nullish element raises a TypeError. -/
def findItem (h : Heap) (key : String) (keyValue : Val) :
    List (Option Ref) → Except JsError (Option Ref)
  | [] => Except.ok none
  | none :: _ => Except.error JsError.typeError
  | some r :: rest =>
    if getProp (h r) key = keyValue then Except.ok (some r)
    else findItem h key keyValue rest

/-- The call `arr.filter(i => i[keyField] !== keyValue)`. -/
def filterItems (h : Heap) (key : String) (keyValue : Val) :
    List (Option Ref) → Except JsError (List (Option Ref))
  | [] => Except.ok []
  | none :: _ => Except.error JsError.typeError
  | some r :: rest =>
    match filterItems h key keyValue rest with
    | Except.error e => Except.error e
    | Except.ok kept =>
      if getProp (h r) key = keyValue then Except.ok kept
      else Except.ok (some r :: kept)

/-- Step 1 of `queueJob` ("Update RAM Immediately"). A member call on
`DB[sheet]` raises a TypeError when `DB` has no such array. -/
def updateRam (s : State) (type sheet : String) (data : Option Ref)
    (keyField keyValue : Val) : Except JsError State :=
  if type = "ADD" then
    match s.DB.get sheet with
    | none => Except.error JsError.typeError
    | some arr => Except.ok { s with DB := s.DB.set sheet (arr ++ [data]) }
  else if type = "UPDATE" then
    match s.DB.get sheet with
    | none => Except.error JsError.typeError
    | some arr =>
      match findItem s.heap (toPropertyKey keyField) keyValue arr with
      | Except.error e => Except.error e
      | Except.ok none => Except.ok s
      | Except.ok (some item) =>
        match data with
        | none => Except.ok s
        | some d =>
          Except.ok { s with heap := Heap.write s.heap item (objectAssign (s.heap item) (s.heap d)) }
  else if type = "DELETE" then
    match s.DB.get sheet with
    | none => Except.error JsError.typeError
    | some arr =>
      match filterItems s.heap (toPropertyKey keyField) keyValue arr with
      | Except.error e => Except.error e
      | Except.ok kept => Except.ok { s with DB := s.DB.set sheet kept }
  else Except.ok s

/-- The `headers` variable computed in step 2 of `queueJob`. -/
def headersFor (sheet : String) : List String :=
  let headers : List String := []
  let headers := if sheet = "Users" then usersHeaders else headers
  let headers := if sheet = "Tasks" then tasksHeaders else headers
  let headers := if sheet = "Groups" then groupsHeaders else headers
  let headers := if sheet = "Stations" then stationsHeaders else headers
  headers

/-- The head of the `while (WRITE_QUEUE.length > 0)` loop: shift the next job
and run up to the first `await` of its iteration, or leave the loop and clear
`isProcessingQueue`. -/
def workerLoop (s : State) : State :=
  match s.WRITE_QUEUE with
  | [] => { s with isProcessingQueue := false, worker := WorkerPc.idle }
  | job :: rest => { s with WRITE_QUEUE := rest, worker := WorkerPc.remoteOp job }

/-- The synchronous part of a call of `processWriteQueue()`. -/
def processWriteQueue (s : State) : State :=
  if s.isProcessingQueue = true ∨ s.WRITE_QUEUE.length = 0 then s
  else workerLoop { s with isProcessingQueue := true }

/-- The worker resumes after the awaited remote operations of the current job:
on success it reaches the 300 ms timer, on an error the `catch` block logs and
the loop goes on at once. -/
def workerRemoteDone (s : State) (ok : Bool) : State :=
  match s.worker with
  | WorkerPc.remoteOp _ => if ok then { s with worker := WorkerPc.delay } else workerLoop s
  | _ => s

/-- The worker resumes after the 300 ms timer. -/
def workerDelayDone (s : State) : State :=
  match s.worker with
  | WorkerPc.delay => workerLoop s
  | _ => s

/-- The function `queueJob(type, sheet, data, keyField, keyValue)`. -/
def queueJob (s : State) (type sheet : String) (data : Option Ref)
    (keyField keyValue : Val) : Except JsError State :=
  match updateRam s type sheet data keyField keyValue with
  | Except.error e => Except.error e
  | Except.ok s1 =>
    let headers := headersFor sheet
    let s2 := { s1 with WRITE_QUEUE := s1.WRITE_QUEUE ++ [Job.mk type sheet data keyField keyValue headers] }
    Except.ok (processWriteQueue s2)

/-! ## Sync engine: `syncDatabase` -/

/-- The array `response.data.valueRanges`, each entry given by its `values`
(absent for an empty range). -/
abbrev Response := List (Option (List Row))

/-- The assignment `DB.X = arrayToObjects(...)`: the new objects are allocated
and the array of `sheet` is replaced. -/
def State.store (s : State) (sheet : String) (objs : List Obj) : State :=
  let r := allocObjs s.heap s.nextRef objs
  { s with heap := r.1, nextRef := r.2.1, DB := s.DB.set sheet r.2.2 }

/-- Every reference held by the array of `sheet` was allocated before `s.nextRef`. -/
def State.bounded (s : State) (sheet : String) : Prop :=
  ∀ arr, s.DB.get sheet = some arr → ∀ x, some x ∈ arr → x < s.nextRef

/-- The part of the `try` block of `syncDatabase` that follows the bulk read.
Reading `data[i].values` raises a TypeError when entry `i` is missing. The
result is the state reached and the error raised, if any. -/
def syncConvert (s : State) (data : Response) : State × Option JsError :=
  match data.get? 0 with
  | none => (s, some JsError.typeError)
  | some v0 =>
    let s := s.store "Users" (arrayToObjects v0 usersHeaders)
    match data.get? 1 with
    | none => (s, some JsError.typeError)
    | some v1 =>
      let s := s.store "Stations" (arrayToObjects v1 stationsHeaders)
      match data.get? 2 with
      | none => (s, some JsError.typeError)
      | some v2 =>
        let s := s.store "Tasks" (arrayToObjects v2 tasksHeaders)
        match data.get? 3 with
        | none => (s, some JsError.typeError)
        | some v3 =>
          let s := s.store "Groups" (arrayToObjects v3 groupsHeaders)
          ({ s with isDbReady := true }, none)

/-- The synchronous part of a call of `syncDatabase()`: the busy guard, then
`isSyncing = true` and the bulk read is issued (`doc.spreadsheetId` is set by
the constructor in sheetsClient.js, so `doc.loadInfo()` is not awaited). The
returned promise is settled at once when the call was skipped. -/
def syncDatabase (s : State) : State × Promise :=
  if s.isSyncing = true ∨ s.isProcessingQueue = true then (s, Promise.settled)
  else ({ s with isSyncing := true, bulkReads := s.bulkReads + 1 }, Promise.pending)

/-- The resolution of the promise of the cycle in flight. -/
def settle : Option Promise → Option Promise
  | some Promise.pending => some Promise.settled
  | p => p

/-- The continuation of `syncDatabase` when the bulk read settles: the rest of
the `try` block on a response, the `catch` block (log only) on any error, then
the `finally` block. -/
def syncResume (s : State) (outcome : Except JsError Response) : State :=
  let s1 := match outcome with
    | Except.error _ => s
    | Except.ok data => (syncConvert s data).1
  { s1 with isSyncing := false, dbReadyPromise := settle s1.dbReadyPromise }

/-- Whether the cycle resumed with `outcome` ends in the `catch` block. -/
def syncFails (s : State) (outcome : Except JsError Response) : Bool :=
  match outcome with
  | Except.error _ => true
  | Except.ok data => (syncConvert s data).2.isSome

/-! ## The event loop -/

/-- The module state before the last statements of index.js run. -/
def initial : State :=
  { heap := fun _ => emptyObj, nextRef := 0,
    DB := { Users := [], Stations := [], Tasks := [], Groups := [] },
    isDbReady := false, dbReadyPromise := none, WRITE_QUEUE := [],
    isProcessingQueue := false, isSyncing := false, worker := WorkerPc.idle,
    bulkReads := 0 }

/-- The state after `dbReadyPromise = syncDatabase()` at the end of index.js. -/
def startup : State :=
  let r := syncDatabase initial
  { r.1 with dbReadyPromise := some r.2 }

/-- A write route: the handler builds a fresh payload object (or passes
`null`) and calls `queueJob`; an error raised by `queueJob` ends the handler. -/
def callQueueJob (s : State) (type sheet : String) (payload : Option Obj)
    (keyField keyValue : Val) : State :=
  let s1 : State := match payload with
    | none => s
    | some o => { s with heap := Heap.write s.heap s.nextRef o, nextRef := s.nextRef + 1 }
  let data : Option Ref := payload.map fun _ => s.nextRef
  match queueJob s1 type sheet data keyField keyValue with
  | Except.ok s2 => s2
  | Except.error _ => s1

/-- What the event loop can run next. -/
inductive Event where
  /-- A write route calls `queueJob` with a fresh payload. -/
  | request (type sheet : String) (payload : Option (List (String × Val)))
      (keyField keyValue : Val)
  /-- The 30 s interval timer calls `syncDatabase()`. -/
  | syncTick
  /-- The bulk read of the cycle in flight settles. -/
  | bulkReadDone (outcome : Except JsError Response)
  /-- The remote operations of the worker's current job settle. -/
  | remoteDone (ok : Bool)
  /-- The worker's 300 ms timer fires. -/
  | delayDone

/-- One turn of the event loop; `none` when the event cannot occur in `s`. -/
def step (s : State) : Event → Option State
  | Event.request type sheet payload keyField keyValue =>
    some (callQueueJob s type sheet (payload.map objLit) keyField keyValue)
  | Event.syncTick => some (syncDatabase s).1
  | Event.bulkReadDone outcome =>
    if s.isSyncing = true then some (syncResume s outcome) else none
  | Event.remoteDone ok =>
    match s.worker with
    | WorkerPc.remoteOp _ => some (workerRemoteDone s ok)
    | _ => none
  | Event.delayDone =>
    match s.worker with
    | WorkerPc.delay => some (workerDelayDone s)
    | _ => none

/-- A sequence of turns of the event loop. -/
def run (s : State) : List Event → Option State
  | [] => some s
  | e :: es =>
    match step s e with
    | none => none
    | some s1 => run s1 es

/-! ## Sample states -/

/-- The module state with the record of Scenario A allocated at reference 0. -/
def scenarioA : State :=
  { initial with
    heap := Heap.write initial.heap 0
      (objLit [("TaskID", Val.str "T1"), ("Status", Val.str "Pending")]),
    nextRef := 1 }

/-- A heap with three task records (references 0 to 2; 0 and 2 share the key
T1) and three patches (references 3 to 5). -/
def sampleHeap : Heap := fun r =>
  if r = 0 then objLit [("TaskID", Val.str "T1"), ("Status", Val.str "Pending")]
  else if r = 1 then objLit [("TaskID", Val.str "T2"), ("Status", Val.str "Pending")]
  else if r = 2 then objLit [("TaskID", Val.str "T1"), ("Status", Val.str "Old")]
  else if r = 3 then objLit [("Status", Val.str "Completed")]
  else if r = 4 then objLit [("TaskID", Val.str "T9")]
  else if r = 5 then objLit [("Status", Val.str "Pending"), ("IsNil", Val.str "FALSE")]
  else emptyObj

/-- A state whose Tasks array holds the records 1, 0, 2 of `sampleHeap`. -/
def sampleTasks : State :=
  { initial with
    heap := sampleHeap,
    nextRef := 6,
    DB := { Users := [], Stations := [], Tasks := [some 1, some 0, some 2], Groups := [] } }

/-- A state whose Tasks array holds the records 1 and 0 of `sampleHeap`, with
the distinct keys T2 and T1. -/
def twoTasks : State :=
  { initial with
    heap := sampleHeap,
    nextRef := 6,
    DB := { Users := [], Stations := [], Tasks := [some 1, some 0], Groups := [] } }

/-- The write route call `queueJob('ADD', 'Tasks', {TaskID: 'T1', Status: 'Pending'})`. -/
def addT1 : Event :=
  Event.request "ADD" "Tasks" (some [("TaskID", Val.str "T1"), ("Status", Val.str "Pending")])
    Val.undefined Val.undefined

/-- A bulk read response for four sheets that hold their header row only. -/
def headerOnlyResponse : Response :=
  [some [usersHeaders], some [stationsHeaders], some [tasksHeaders], some [groupsHeaders]]

/-- A bulk read response with one user row and one task row. -/
def fullResponse : Response :=
  [some [usersHeaders, ["U1", "Asha", "User", "North", "Alpha", "asha@example.org", "K1"]],
   some [stationsHeaders],
   some [tasksHeaders, ["T1", "link", "Daily", "U1", "Pending"]],
   some [groupsHeaders]]

/-- A response whose `valueRanges` array has two entries only. -/
def shortResponse : Response := [some [usersHeaders], some [stationsHeaders]]

/-! ## Worker bookkeeping -/

/-- The consistency of the busy flag with the suspended loop: when
`isProcessingQueue` is false no loop is running and the queue is empty, and
when it is true a loop is suspended. -/
def WorkerInv (s : State) : Prop :=
  (s.isProcessingQueue = false → s.WRITE_QUEUE = [] ∧ s.worker = WorkerPc.idle) ∧
  (s.isProcessingQueue = true → s.worker ≠ WorkerPc.idle)

/-- The write route call `queueJob('ADD', 'Tasks', {TaskID: 'T2', Status: 'Pending'})`. -/
def addT2 : Event :=
  Event.request "ADD" "Tasks" (some [("TaskID", Val.str "T2"), ("Status", Val.str "Pending")])
    Val.undefined Val.undefined

/-- The value of `WRITE_QUEUE.shift()` at the head of the worker loop, as a
list: empty when the loop ends instead. -/
def workerLoopShift (s : State) : List Job :=
  match s.WRITE_QUEUE with
  | [] => []
  | job :: _ => [job]

/-- The jobs shifted inside a call of `processWriteQueue()`. -/
def processWriteQueueShift (s : State) : List Job :=
  if s.isProcessingQueue = true ∨ s.WRITE_QUEUE.length = 0 then []
  else workerLoopShift { s with isProcessingQueue := true }

/-- The jobs that `WRITE_QUEUE.push` receives inside a call of `queueJob`. -/
def queueJobPush (s : State) (type sheet : String) (data : Option Ref)
    (keyField keyValue : Val) : List Job :=
  match updateRam s type sheet data keyField keyValue with
  | Except.error _ => []
  | Except.ok _ => [Job.mk type sheet data keyField keyValue (headersFor sheet)]

/-- The jobs shifted inside a call of `queueJob`. -/
def queueJobShift (s : State) (type sheet : String) (data : Option Ref)
    (keyField keyValue : Val) : List Job :=
  match updateRam s type sheet data keyField keyValue with
  | Except.error _ => []
  | Except.ok s1 =>
    processWriteQueueShift
      { s1 with WRITE_QUEUE := s1.WRITE_QUEUE ++
          [Job.mk type sheet data keyField keyValue (headersFor sheet)] }

/-- The state in which a write route calls `queueJob`: its payload object has
been allocated. -/
def payloadState (s : State) (payload : Option Obj) : State :=
  match payload with
  | none => s
  | some o => { s with heap := Heap.write s.heap s.nextRef o, nextRef := s.nextRef + 1 }

/-- The jobs enqueued during one turn of the event loop. -/
def pushedBy (s : State) : Event → List Job
  | Event.request type sheet payload keyField keyValue =>
    queueJobPush (payloadState s (payload.map objLit)) type sheet
      ((payload.map objLit).map fun _ => s.nextRef) keyField keyValue
  | _ => []

/-- The jobs the worker pops during one turn of the event loop. -/
def poppedBy (s : State) : Event → List Job
  | Event.request type sheet payload keyField keyValue =>
    queueJobShift (payloadState s (payload.map objLit)) type sheet
      ((payload.map objLit).map fun _ => s.nextRef) keyField keyValue
  | Event.remoteDone ok =>
    match s.worker with
    | WorkerPc.remoteOp _ => if ok then [] else workerLoopShift s
    | _ => []
  | Event.delayDone =>
    match s.worker with
    | WorkerPc.delay => workerLoopShift s
    | _ => []
  | _ => []

/-- A sequence of turns of the event loop together with the jobs enqueued and
the jobs popped, each in the order of occurrence. -/
def runLog (s : State) : List Event → Option (State × List Job × List Job)
  | [] => some (s, [], [])
  | e :: es =>
    match step s e with
    | none => none
    | some s1 =>
      match runLog s1 es with
      | none => none
      | some r => some (r.1, pushedBy s e ++ r.2.1, poppedBy s e ++ r.2.2)

/-! ## Readiness gate -/

/-- The server seen from the guarded read routes: the module state, the number
of requests suspended in `waitForDb` at `await dbReadyPromise`, and for each
call of `next()` made by `waitForDb` so far the value `isDbReady` had at the
call. The guarded routes only read `DB`. -/
structure Server where
  core : State
  waiting : Nat
  nextCalls : List Bool

/-- The synchronous part of the middleware `waitForDb(req, res, next)`: it
calls `next()` at once when `isDbReady` is true; otherwise it starts a cycle
when `dbReadyPromise` is unset and suspends at `await dbReadyPromise`. -/
def waitForDb (v : Server) : Server :=
  if v.core.isDbReady = true then { v with nextCalls := v.nextCalls ++ [v.core.isDbReady] }
  else
    let core1 : State := match v.core.dbReadyPromise with
      | some _ => v.core
      | none =>
        let r := syncDatabase v.core
        { r.1 with dbReadyPromise := some r.2 }
    { v with core := core1, waiting := v.waiting + 1 }

/-- The continuation of `waitForDb` after `await dbReadyPromise`: the call `next()`. -/
def waitForDbResume (v : Server) : Server :=
  { v with waiting := v.waiting - 1, nextCalls := v.nextCalls ++ [v.core.isDbReady] }

/-- What the event loop of the server can run next. -/
inductive ServerEvent where
  /-- A turn of the engine. -/
  | engine (e : Event)
  /-- A request to a route guarded by `waitForDb` arrives. -/
  | guardedRequest
  /-- A request suspended at `await dbReadyPromise` resumes. -/
  | gateOpens

/-- One turn of the event loop of the server; a suspended request resumes only
once `dbReadyPromise` is settled. -/
def serverStep (v : Server) : ServerEvent → Option Server
  | ServerEvent.engine e =>
    match step v.core e with
    | none => none
    | some c => some { v with core := c }
  | ServerEvent.guardedRequest => some (waitForDb v)
  | ServerEvent.gateOpens =>
    if 0 < v.waiting ∧ v.core.dbReadyPromise = some Promise.settled then
      some (waitForDbResume v)
    else none

/-- A sequence of turns of the event loop of the server. -/
def serverRun (v : Server) : List ServerEvent → Option Server
  | [] => some v
  | e :: es =>
    match serverStep v e with
    | none => none
    | some v1 => serverRun v1 es

/-- The server once index.js has been loaded. -/
def serverStartup : Server := { core := startup, waiting := 0, nextCalls := [] }

/-- A run of the server in which the startup cycle fails, a guarded request
is served, and the next cycle succeeds. -/
def gateTrace : List ServerEvent :=
  [ServerEvent.engine (Event.bulkReadDone (Except.error JsError.remoteError)),
   ServerEvent.guardedRequest,
   ServerEvent.gateOpens,
   ServerEvent.engine Event.syncTick,
   ServerEvent.engine (Event.bulkReadDone (Except.ok headerOnlyResponse)),
   ServerEvent.engine addT1]

/-! ## Remote store

The worksheets are reached through the google-spreadsheet client, which is not
part of the repository sources; its operations are modelled from the spec
(sections 4.2 and 6). -/

/-- Modelled from the spec: a remote worksheet (the client's worksheet object
is missing from the sources), given by its title, its header row and the raw
cells of its data rows. -/
structure Sheet where
  title : String
  headerValues : List String
  rows : List Row
  deriving DecidableEq

/-- Modelled from the spec: the remote document, the array `doc.sheetsByIndex`. -/
abbrev Doc := List Sheet

/-- Modelled from the spec: the text written to a cell for a property value
(the client's serialisation is missing from the sources); a value that is not
a string leaves the cell empty. -/
def cellOfVal : Val → String
  | Val.str c => c
  | _ => ""

/-- Modelled from the spec: `sheet.addRow(record)` of the client, "appends one
row using the declared schema's field order": the new last row holds, under
each header, the record's value for that header. -/
def Sheet.addRow (sh : Sheet) (record : Obj) : Sheet :=
  { sh with rows := sh.rows ++ [sh.headerValues.map fun h => cellOfVal (getProp record h)] }

/-- Modelled from the spec: `row.get(key)` of the client, the cell under the
first header equal to `key`; `undefined` when there is no such header or the
row has no cell there. -/
def rowGet (headerValues : List String) (row : Row) (key : Val) : Val :=
  match key with
  | Val.str k =>
    if k ∈ headerValues then
      match row.get? (headerValues.indexOf k) with
      | some c => Val.str c
      | none => Val.undefined
    else Val.undefined
  | _ => Val.undefined

/-- Modelled from the spec: writing cell `i` of a row, which grows with empty
cells when it is too short. -/
def setCell (row : Row) (i : Nat) (c : String) : Row :=
  if i < row.length then row.set i c
  else row ++ List.replicate (i - row.length) "" ++ [c]

/-- Modelled from the spec: `row.assign(patch)` followed by `row.save()` of
the client, "merges patch fields into that row, writes it back": each property
of the patch is written under the first header of that name, properties with
no header are dropped. -/
def assignRow (headerValues : List String) (patch : Obj) (row : Row) : Row :=
  headerValues.enum.foldl
    (fun r (p : Nat × String) =>
      if headerValues.indexOf p.2 = p.1 then
        match patch p.2 with
        | some v => setCell r p.1 (cellOfVal v)
        | none => r
      else r)
    row

/-- The index of the first element that satisfies `p`, as found by
`Array.prototype.find`. -/
def firstIndex {α : Type} (p : α → Bool) : List α → Option Nat
  | [] => none
  | a :: l => if p a then some 0 else (firstIndex p l).map fun i => i + 1

/-- The method `toLowerCase()` on titles, for ASCII letters. -/
def toLowerCase (s : String) : String := String.mk (s.data.map Char.toLower)

/-- The outcomes of the remote calls made inside `getSheet`. -/
structure SheetEnv where
  firstLoadOk : Bool
  secondLoadOk : Bool
  addSheetOk : Bool

/-- The environment in which every remote call succeeds. -/
def SheetEnv.allOk : SheetEnv := { firstLoadOk := true, secondLoadOk := true, addSheetOk := true }

/-- The function `getSheet(title, headers)` of index.js: `doc.loadInfo()`,
retried once after a failure; then the first sheet whose lower-cased title
equals the lower-cased `title`, or else a sheet created by `doc.addSheet` with
that title and those headers. Returns the document and the index of the sheet.
Lower-casing is that of ASCII letters. -/
def getSheet (doc : Doc) (title : String) (headers : List String) (env : SheetEnv) :
    Except JsError (Doc × Nat) :=
  if env.firstLoadOk = false ∧ env.secondLoadOk = false then Except.error JsError.remoteError
  else
    match firstIndex (fun s => decide (toLowerCase s.title = toLowerCase title)) doc with
    | some i => Except.ok (doc, i)
    | none =>
      if env.addSheetOk = true then
        Except.ok (doc ++ [{ title := title, headerValues := headers, rows := [] }], doc.length)
      else Except.error JsError.remoteError

/-- The properties `row.assign(job.data)` enumerates: those of the payload
object, none for a nullish payload. -/
def patchOf (h : Heap) (data : Option Ref) : Obj :=
  match data with
  | none => emptyObj
  | some d => h d

/-- The body of the `try` block of the worker loop for `job` up to the timer,
when no remote call fails: `getSheet`, then the operation chosen by
`job.type`: `addRow(job.data)`; or `getRows()`, the first row with
`r.get(job.keyField) === job.keyValue`, `assign(job.data)` and `save()`; or
`getRows()`, the first row whose key cell is truthy and equal to
`job.keyValue`, and `delete()`. The payload is read from the heap at this
moment. Adding a nullish payload raises a TypeError in the client. -/
def replayJob (doc : Doc) (h : Heap) (job : Job) : Except JsError Doc :=
  match getSheet doc job.sheet job.headers SheetEnv.allOk with
  | Except.error e => Except.error e
  | Except.ok (doc1, i) =>
    match doc1.get? i with
    | none => Except.error JsError.typeError
    | some sh =>
      if job.type = "ADD" then
        match job.data with
        | none => Except.error JsError.typeError
        | some d => Except.ok (doc1.set i (sh.addRow (h d)))
      else if job.type = "UPDATE" then
        match firstIndex (fun r => decide (rowGet sh.headerValues r job.keyField = job.keyValue))
            sh.rows with
        | none => Except.ok doc1
        | some k =>
          Except.ok (doc1.set i
            { sh with rows := sh.rows.modify (assignRow sh.headerValues (patchOf h job.data)) k })
      else if job.type = "DELETE" then
        match firstIndex (fun r =>
            decide (rowGet sh.headerValues r job.keyField ≠ Val.undefined ∧
              rowGet sh.headerValues r job.keyField ≠ Val.str "" ∧
              rowGet sh.headerValues r job.keyField = job.keyValue)) sh.rows with
        | none => Except.ok doc1
        | some k => Except.ok (doc1.set i { sh with rows := sh.rows.eraseIdx k })
      else Except.ok doc1

/-- The engine together with the remote document. -/
structure System where
  core : State
  doc : Doc

/-- One turn of the event loop in a run where no remote call of the worker
fails: when the remote operation of the job held by the worker settles, the
document is the one `replayJob` yields; the other turns leave it as it is. -/
def systemStep (y : System) : Event → Option System
  | Event.remoteDone true =>
    match y.core.worker with
    | WorkerPc.remoteOp job =>
      match replayJob y.doc y.core.heap job with
      | Except.ok d => some { core := workerRemoteDone y.core true, doc := d }
      | Except.error _ => none
    | _ => none
  | Event.remoteDone false => none
  | e =>
    match step y.core e with
    | none => none
    | some c => some { y with core := c }

/-- A sequence of turns of the event loop with no failing remote call. -/
def systemRun (y : System) : List Event → Option System
  | [] => some y
  | e :: es =>
    match systemStep y e with
    | none => none
    | some y1 => systemRun y1 es

/-! ## Sample runs with the remote store -/

/-- A remote document whose Tasks sheet has the two columns TaskID and Status
and no data row. -/
def tasksDoc : Doc := [{ title := "Tasks", headerValues := ["TaskID", "Status"], rows := [] }]

/-- The engine after a first cycle that found the sheets empty, with `tasksDoc`. -/
def quietSystem : System :=
  { core := syncResume startup (Except.ok headerOnlyResponse), doc := tasksDoc }

/-- The write route call `queueJob('ADD', 'Tasks', {TaskID: 'T5', Status: 'Pending'})`. -/
def addT5 : Event :=
  Event.request "ADD" "Tasks" (some [("TaskID", Val.str "T5"), ("Status", Val.str "Pending")])
    Val.undefined Val.undefined

/-- A write route call `queueJob('UPDATE', 'Tasks', patch, 'TaskID', key)`. -/
def updateTask (key : String) (patch : List (String × Val)) : Event :=
  Event.request "UPDATE" "Tasks" (some patch) (Val.str "TaskID") (Val.str key)

/-- The worker completes the job it holds and its timer fires. -/
def replayOne : List Event := [Event.remoteDone true, Event.delayDone]

/-- Five writes that keep the in-memory keys distinct (T1; T1, T5; T1, T5;
T2, T5; T2, T1), followed by the drain of the five jobs. -/
def renameTrace : List Event :=
  [addT1, addT5,
   updateTask "T1" [("Status", Val.str "Done")],
   updateTask "T1" [("TaskID", Val.str "T2")],
   updateTask "T5" [("TaskID", Val.str "T1")]]
  ++ replayOne ++ replayOne ++ replayOne ++ replayOne ++ replayOne

/-- Scenario C of the spec: the three writes for one record of `sheet` whose
key field `kf` has the value `kv`. -/
def scenarioC (sheet : String) (record : List (String × Val)) (kf kv : String) : List Event :=
  [Event.request "ADD" sheet (some record) Val.undefined Val.undefined,
   Event.request "UPDATE" sheet (some [("Status", Val.str "Completed")]) (Val.str kf)
     (Val.str kv),
   Event.request "DELETE" sheet none (Val.str kf) (Val.str kv)]

/-- The TaskID of each in-memory task record, in order. -/
def taskKeys (s : State) : List Val :=
  s.DB.Tasks.map fun e =>
    match e with
    | some r => getProp (s.heap r) "TaskID"
    | none => Val.undefined

/-! ## Grids built from records -/

/-- The values of a record in header order, as the cells of a grid row. -/
def recordRow (headers : List String) (o : Obj) : Row :=
  headers.map fun h => cellOfVal (getProp o h)

/-- A grid whose header row names the column A twice, with one data row. -/
def twiceA : List Row := [["A", "A"], ["x", "y"]]

/-- A Stations record whose station list is empty. -/
def northStation : Obj := objLit [("Subdivision", Val.str "North"), ("Stations", Val.str "")]

/-! ## Calls made by `getSheet`, rows selected by the replay -/

/-- A call awaited inside `getSheet`. -/
inductive SheetCall where
  /-- The call `doc.loadInfo()`. -/
  | loadInfo
  /-- The 1000 ms timer of the `catch` block. -/
  | wait
  /-- The call `doc.addSheet({ title, headerValues })`. -/
  | addSheet (title : String) (headerValues : List String)
  deriving DecidableEq

/-- The calls `getSheet(title, headers)` awaits, in order: `doc.loadInfo()`,
after a failure the timer and `doc.loadInfo()` again, and `doc.addSheet` when
the metadata was loaded and no title matches. -/
def getSheetCalls (doc : Doc) (title : String) (headers : List String) (env : SheetEnv) :
    List SheetCall :=
  let loads : List SheetCall :=
    if env.firstLoadOk = true then [SheetCall.loadInfo]
    else [SheetCall.loadInfo, SheetCall.wait, SheetCall.loadInfo]
  if env.firstLoadOk = false ∧ env.secondLoadOk = false then loads
  else
    match firstIndex (fun s => decide (toLowerCase s.title = toLowerCase title)) doc with
    | some _ => loads
    | none => loads ++ [SheetCall.addSheet title headers]

/-- Truthiness of a primitive value: `undefined`, `null` and the empty string
are falsy. -/
def jsTruthy : Val → Bool
  | Val.str c => decide (c ≠ "")
  | _ => false

/-- The row selected by the UPDATE replay,
`rows.find(r => r.get(job.keyField) === job.keyValue)`, as an index; `get`
reads the key cell of a row. -/
def updateRowIndex (get : Row → Val) (keyValue : Val) (rows : List Row) : Option Nat :=
  firstIndex (fun r => decide (get r = keyValue)) rows

/-- The row selected by the DELETE replay,
`rows.find(r => { const val = r.get(job.keyField); return val && val === job.keyValue; })`,
as an index. -/
def deleteRowIndex (get : Row → Val) (keyValue : Val) (rows : List Row) : Option Nat :=
  firstIndex (fun r => jsTruthy (get r) && decide (get r = keyValue)) rows

/-- A Tasks row whose key cell is empty. -/
def blankKeyRows : List Row := [["", "Pending"], ["T1", "Pending"]]

/-- A document whose Tasks sheet holds `blankKeyRows`. -/
def blankKeyDoc : Doc :=
  [{ title := "Tasks", headerValues := ["TaskID", "Status"], rows := blankKeyRows }]

/-- The job `DELETE` of the Tasks row whose `TaskID` is the empty string. -/
def blankDeleteJob : Job :=
  { type := "DELETE", sheet := "Tasks", data := none, keyField := Val.str "TaskID",
    keyValue := Val.str "", headers := tasksHeaders }

/-- The job `UPDATE` of the Tasks row whose `TaskID` is the empty string, with
the payload at reference 0. -/
def blankUpdateJob : Job :=
  { type := "UPDATE", sheet := "Tasks", data := some 0, keyField := Val.str "TaskID",
    keyValue := Val.str "", headers := tasksHeaders }

/-- A heap whose objects are all the payload `{ Status: 'Done' }`. -/
def doneHeap : Heap := fun _ => setProp emptyObj "Status" (Val.str "Done")

/-- The document `blankKeyDoc` after the status of its row 0 became Done. -/
def blankKeyDocDone : Doc :=
  [{ title := "Tasks", headerValues := ["TaskID", "Status"],
     rows := [["", "Done"], ["T1", "Pending"]] }]

/-! ## Auxiliary facts -/

theorem DBStore.get_set_same (db : DBStore) (sheet : String) (arr l : List (Option Ref))
    (h : db.get sheet = some arr) : (db.set sheet l).get sheet = some l := by
  unfold DBStore.get DBStore.set at *
  split_ifs at h ⊢ <;> simp_all

theorem DBStore.get_set_other (db : DBStore) (sheet other : String) (l : List (Option Ref))
    (h : other ≠ sheet) : (db.set sheet l).get other = db.get other := by
  unfold DBStore.get DBStore.set
  split_ifs <;> simp_all

theorem DBStore.set_get_self (db : DBStore) (sheet : String) (arr : List (Option Ref))
    (h : db.get sheet = some arr) : db.set sheet arr = db := by
  cases db
  unfold DBStore.get DBStore.set at *
  split_ifs at h ⊢ <;> simp_all

theorem DBStore.get_of_mem (db : DBStore) (sheet : String)
    (h : sheet ∈ ["Users", "Stations", "Tasks", "Groups"]) : ∃ arr, db.get sheet = some arr := by
  unfold DBStore.get
  simp only [List.mem_cons, List.mem_singleton, List.not_mem_nil, or_false] at h
  rcases h with h | h | h | h <;> subst h <;> simp

theorem processWriteQueue_DB (s : State) : (processWriteQueue s).DB = s.DB := by
  unfold processWriteQueue workerLoop
  split_ifs
  · rfl
  · split <;> rfl

theorem processWriteQueue_heap (s : State) : (processWriteQueue s).heap = s.heap := by
  unfold processWriteQueue workerLoop
  split_ifs
  · rfl
  · split <;> rfl

theorem processWriteQueue_busy (s : State) (h : s.isProcessingQueue = true) :
    processWriteQueue s = s := by
  unfold processWriteQueue
  simp [h]

theorem processWriteQueue_push_idle (s : State) (job : Job) (h : s.isProcessingQueue = false) :
    ∃ j, (processWriteQueue { s with WRITE_QUEUE := s.WRITE_QUEUE ++ [job] }).worker
          = WorkerPc.remoteOp j ∧
      j :: (processWriteQueue { s with WRITE_QUEUE := s.WRITE_QUEUE ++ [job] }).WRITE_QUEUE
          = s.WRITE_QUEUE ++ [job] ∧
      (processWriteQueue { s with WRITE_QUEUE := s.WRITE_QUEUE ++ [job] }).isProcessingQueue
          = true := by
  unfold processWriteQueue workerLoop
  cases hq : s.WRITE_QUEUE with
  | nil => simp [h, hq]
  | cons a rest => simp [h, hq]

theorem findItem_first (h : Heap) (key : String) (keyValue : Val) (pre : List Ref) (r : Ref)
    (post : List (Option Ref))
    (hpre : ∀ x ∈ pre, getProp (h x) key ≠ keyValue) (hr : getProp (h r) key = keyValue) :
    findItem h key keyValue (pre.map some ++ some r :: post) = Except.ok (some r) := by
  induction pre with
  | nil => simp [findItem, hr]
  | cons a pre ih =>
    have ha : getProp (h a) key ≠ keyValue := hpre a (List.mem_cons_self _ _)
    have ih2 := ih (fun x hx => hpre x (List.mem_cons_of_mem _ hx))
    simp [findItem, ha, ih2]

theorem findItem_absent (h : Heap) (key : String) (keyValue : Val) (refs : List Ref)
    (hall : ∀ x ∈ refs, getProp (h x) key ≠ keyValue) :
    findItem h key keyValue (refs.map some) = Except.ok none := by
  induction refs with
  | nil => simp [findItem]
  | cons a refs ih =>
    have ha : getProp (h a) key ≠ keyValue := hall a (List.mem_cons_self _ _)
    have ih2 := ih (fun x hx => hall x (List.mem_cons_of_mem _ hx))
    simp [findItem, ha, ih2]

theorem filterItems_objects (h : Heap) (key : String) (keyValue : Val) (refs : List Ref) :
    filterItems h key keyValue (refs.map some)
      = Except.ok ((refs.filter fun x => decide (getProp (h x) key ≠ keyValue)).map some) := by
  induction refs with
  | nil => simp [filterItems]
  | cons a refs ih =>
    simp only [List.map_cons, filterItems, ih]
    by_cases ha : getProp (h a) key = keyValue
    · simp [ha]
    · simp [ha]

theorem queueJob_of_updateRam (s s1 : State) (type sheet : String) (data : Option Ref)
    (keyField keyValue : Val) (h : updateRam s type sheet data keyField keyValue = Except.ok s1) :
    queueJob s type sheet data keyField keyValue
      = Except.ok (processWriteQueue
          { s1 with WRITE_QUEUE := s1.WRITE_QUEUE ++
              [Job.mk type sheet data keyField keyValue (headersFor sheet)] }) := by
  simp only [queueJob, h]

theorem updateRam_add (s : State) (sheet : String) (data : Option Ref) (keyField keyValue : Val)
    (arr : List (Option Ref)) (harr : s.DB.get sheet = some arr) :
    updateRam s "ADD" sheet data keyField keyValue
      = Except.ok { s with DB := s.DB.set sheet (arr ++ [data]) } := by
  simp only [updateRam, harr, if_true]

/-- The heap after `Object.assign(item, data)`. -/
theorem updateRam_update_found (s : State) (sheet : String) (data : Option Ref)
    (keyField keyValue : Val) (arr : List (Option Ref)) (r : Ref)
    (harr : s.DB.get sheet = some arr)
    (hfind : findItem s.heap (toPropertyKey keyField) keyValue arr = Except.ok (some r)) :
    updateRam s "UPDATE" sheet data keyField keyValue
      = Except.ok (match data with
          | none => s
          | some d =>
            { s with heap := Heap.write s.heap r (objectAssign (s.heap r) (s.heap d)) }) := by
  have h1 : ¬ ("UPDATE" = "ADD") := by decide
  cases data <;> simp only [updateRam, harr, hfind, h1, if_true, if_false]

theorem updateRam_update_absent (s : State) (sheet : String) (data : Option Ref)
    (keyField keyValue : Val) (arr : List (Option Ref))
    (harr : s.DB.get sheet = some arr)
    (hfind : findItem s.heap (toPropertyKey keyField) keyValue arr = Except.ok none) :
    updateRam s "UPDATE" sheet data keyField keyValue = Except.ok s := by
  have h1 : ¬ ("UPDATE" = "ADD") := by decide
  simp only [updateRam, harr, hfind, h1, if_true, if_false]

theorem updateRam_delete (s : State) (sheet : String) (data : Option Ref)
    (keyField keyValue : Val) (arr kept : List (Option Ref))
    (harr : s.DB.get sheet = some arr)
    (hfilter : filterItems s.heap (toPropertyKey keyField) keyValue arr = Except.ok kept) :
    updateRam s "DELETE" sheet data keyField keyValue
      = Except.ok { s with DB := s.DB.set sheet kept } := by
  have h1 : ¬ ("DELETE" = "ADD") := by decide
  have h2 : ¬ ("DELETE" = "UPDATE") := by decide
  simp only [updateRam, harr, hfilter, h1, h2, if_true, if_false]

/-- The state reached by an UPDATE that finds its record at `r`. -/
theorem queueJob_update_heap (s : State) (sheet : String) (data : Option Ref)
    (keyField keyValue : Val) (pre : List Ref) (r : Ref) (post : List (Option Ref))
    (harr : s.DB.get sheet = some (pre.map some ++ some r :: post))
    (hpre : ∀ x ∈ pre, getProp (s.heap x) (toPropertyKey keyField) ≠ keyValue)
    (hr : getProp (s.heap r) (toPropertyKey keyField) = keyValue) :
    ∃ s', queueJob s "UPDATE" sheet data keyField keyValue = Except.ok s' ∧
      s'.DB = s.DB ∧
      s'.heap = (match data with
        | none => s.heap
        | some d => Heap.write s.heap r (objectAssign (s.heap r) (s.heap d))) := by
  have hfind := findItem_first s.heap (toPropertyKey keyField) keyValue pre r post hpre hr
  refine ⟨_, queueJob_of_updateRam _ _ _ _ _ _ _
    (updateRam_update_found s sheet data keyField keyValue _ r harr hfind), ?_, ?_⟩
  · rw [processWriteQueue_DB]
    cases data <;> rfl
  · rw [processWriteQueue_heap]
    cases data <;> rfl

/-! ## Allocation -/

theorem allocObjs_next (objs : List Obj) : ∀ (h : Heap) (n : Nat),
    (allocObjs h n objs).2.1 = n + objs.length := by
  induction objs with
  | nil => intro h n; rfl
  | cons o os ih =>
    intro h n
    simp only [allocObjs, ih, List.length_cons]
    omega

theorem allocObjs_heap_below (objs : List Obj) : ∀ (h : Heap) (n x : Nat), x < n →
    (allocObjs h n objs).1 x = h x := by
  induction objs with
  | nil => intro h n x _; rfl
  | cons o os ih =>
    intro h n x hx
    simp only [allocObjs]
    rw [ih _ _ _ (Nat.lt_succ_of_lt hx)]
    have hne : x ≠ n := Nat.ne_of_lt hx
    simp [Heap.write, hne]

theorem allocObjs_deref (objs : List Obj) : ∀ (h : Heap) (n : Nat),
    (allocObjs h n objs).2.2.map (Option.map (allocObjs h n objs).1) = objs.map some := by
  induction objs with
  | nil => intro h n; rfl
  | cons o os ih =>
    intro h n
    simp only [allocObjs, List.map_cons, Option.map_some', ih]
    rw [allocObjs_heap_below os _ (n + 1) n (Nat.lt_succ_self n)]
    simp [Heap.write]

theorem allocObjs_refs_lt (objs : List Obj) : ∀ (h : Heap) (n x : Nat),
    some x ∈ (allocObjs h n objs).2.2 → x < (allocObjs h n objs).2.1 := by
  induction objs with
  | nil => intro h n x hx; simp [allocObjs] at hx
  | cons o os ih =>
    intro h n x hx
    simp only [allocObjs, List.mem_cons] at hx ⊢
    rcases hx with hx | hx
    · cases hx
      rw [allocObjs_next]
      omega
    · exact ih _ _ _ hx

theorem store_records_same (s : State) (sheet : String) (objs : List Obj)
    (hsheet : sheet ∈ ["Users", "Stations", "Tasks", "Groups"]) :
    (s.store sheet objs).records sheet = some (objs.map some) := by
  obtain ⟨arr, harr⟩ := DBStore.get_of_mem s.DB sheet hsheet
  unfold State.records State.store
  simp only [DBStore.get_set_same _ _ _ _ harr, Option.map_some']
  rw [allocObjs_deref]

theorem store_bounded_same (s : State) (sheet : String) (objs : List Obj)
    (hsheet : sheet ∈ ["Users", "Stations", "Tasks", "Groups"]) :
    (s.store sheet objs).bounded sheet := by
  obtain ⟨arr, harr⟩ := DBStore.get_of_mem s.DB sheet hsheet
  intro arr1 h1 x hx
  unfold State.store at h1 ⊢
  simp only [DBStore.get_set_same _ _ _ _ harr, Option.some.injEq] at h1
  subst h1
  exact allocObjs_refs_lt _ _ _ _ hx

theorem store_records_other (s : State) (sheet other : String) (objs : List Obj)
    (hne : other ≠ sheet) (hb : s.bounded other) :
    (s.store sheet objs).records other = s.records other := by
  unfold State.records State.store
  simp only [DBStore.get_set_other _ _ _ _ hne]
  cases harr : s.DB.get other with
  | none => rfl
  | some arr =>
    simp only [Option.map_some', Option.some.injEq]
    apply List.map_congr_left
    intro e he
    cases e with
    | none => rfl
    | some x =>
      simp only [Option.map_some', Option.some.injEq]
      exact allocObjs_heap_below _ _ _ _ (hb arr harr x he)

theorem store_bounded_other (s : State) (sheet other : String) (objs : List Obj)
    (hne : other ≠ sheet) (hb : s.bounded other) :
    (s.store sheet objs).bounded other := by
  intro arr harr x hx
  unfold State.store at harr ⊢
  simp only [DBStore.get_set_other _ _ _ _ hne] at harr
  have hx1 := hb arr harr x hx
  simp only [allocObjs_next]
  exact Nat.lt_of_lt_of_le hx1 (Nat.le_add_right _ _)

/-! ## Claims on `queueJob` -/

/-- C2: for each of the four collections, `queueJob('ADD', sheet, record)`
returns normally and leaves `DB[sheet]` equal to the previous array with the
record appended last; no object is modified and the other arrays are
untouched, so a read right after the call lists the earlier records unchanged,
in the same order, followed by the new record. -/
theorem queueJob_add_appends (s : State) (sheet : String) (r : Ref) (keyField keyValue : Val)
    (hsheet : sheet ∈ ["Users", "Stations", "Tasks", "Groups"]) :
    ∃ arr s', s.DB.get sheet = some arr ∧
      queueJob s "ADD" sheet (some r) keyField keyValue = Except.ok s' ∧
      s'.DB.get sheet = some (arr ++ [some r]) ∧
      s'.heap = s.heap ∧
      (∀ other, other ≠ sheet → s'.DB.get other = s.DB.get other) ∧
      s'.records sheet = some (arr.map (Option.map s.heap) ++ [some (s.heap r)]) := by
  obtain ⟨arr, harr⟩ := DBStore.get_of_mem s.DB sheet hsheet
  refine ⟨arr, _, harr, queueJob_of_updateRam _ _ _ _ _ _ _
    (updateRam_add s sheet (some r) keyField keyValue arr harr), ?_, ?_, ?_, ?_⟩
  · rw [processWriteQueue_DB]
    exact DBStore.get_set_same _ _ _ _ harr
  · rw [processWriteQueue_heap]
  · intro other hne
    rw [processWriteQueue_DB]
    exact DBStore.get_set_other _ _ _ _ hne
  · unfold State.records
    rw [processWriteQueue_DB, processWriteQueue_heap]
    simp [DBStore.get_set_same _ _ _ _ harr]

/-- Scenario A of the spec as an instance of C2. -/
theorem queueJob_add_appends_witness :
    "Tasks" ∈ ["Users", "Stations", "Tasks", "Groups"] ∧
    ∃ s', queueJob scenarioA "ADD" "Tasks" (some 0) Val.undefined Val.undefined = Except.ok s' ∧
      s'.DB.get "Tasks" = some [some 0] ∧
      getProp (s'.heap 0) "TaskID" = Val.str "T1" ∧
      getProp (s'.heap 0) "Status" = Val.str "Pending" := by
  refine ⟨by decide, ?_⟩
  obtain ⟨arr, s', harr, hq, hdb, hheap, _, _⟩ :=
    queueJob_add_appends scenarioA "Tasks" 0 Val.undefined Val.undefined (by decide)
  have h0 : scenarioA.DB.get "Tasks" = some [] := rfl
  rw [h0] at harr
  cases harr
  refine ⟨s', hq, hdb, ?_, ?_⟩
  · rw [hheap]; decide
  · rw [hheap]; decide

/-- C3: when the array of `sheet` holds a record whose key field equals the key
value (`r` is the first one, the elements before it are records that do not
match), `queueJob('UPDATE', ...)` returns normally and changes only that
object: every field named in the patch takes the patch's value, every other
field of the object keeps its value, every other object is unchanged, and the
arrays of `DB` (elements, length, order) are unchanged. -/
theorem queueJob_update_first_match (s : State) (sheet : String) (data : Option Ref)
    (keyField keyValue : Val) (pre : List Ref) (r : Ref) (post : List (Option Ref))
    (harr : s.DB.get sheet = some (pre.map some ++ some r :: post))
    (hpre : ∀ x ∈ pre, getProp (s.heap x) (toPropertyKey keyField) ≠ keyValue)
    (hr : getProp (s.heap r) (toPropertyKey keyField) = keyValue) :
    ∃ s', queueJob s "UPDATE" sheet data keyField keyValue = Except.ok s' ∧
      s'.DB = s.DB ∧
      (∀ x, x ≠ r → s'.heap x = s.heap x) ∧
      (∀ d f v, data = some d → s.heap d f = some v → s'.heap r f = some v) ∧
      (∀ f, (∀ d, data = some d → s.heap d f = none) → s'.heap r f = s.heap r f) := by
  have hfind := findItem_first s.heap (toPropertyKey keyField) keyValue pre r post hpre hr
  refine ⟨_, queueJob_of_updateRam _ _ _ _ _ _ _
    (updateRam_update_found s sheet data keyField keyValue _ r harr hfind), ?_, ?_, ?_, ?_⟩
  · rw [processWriteQueue_DB]
    cases data <;> rfl
  · intro x hx
    rw [processWriteQueue_heap]
    cases data with
    | none => rfl
    | some d => simp [Heap.write, hx]
  · intro d f v hd hv
    subst hd
    rw [processWriteQueue_heap]
    simp [Heap.write, objectAssign, hv]
  · intro f hf
    rw [processWriteQueue_heap]
    cases data with
    | none => rfl
    | some d => simp [Heap.write, objectAssign, hf d rfl]

/-- An instance of C3: the first record with key T1 is patched, the later
record with the same key is not. -/
theorem queueJob_update_first_match_witness :
    (sampleTasks.DB.get "Tasks" = some ([1].map some ++ some 0 :: [some 2]) ∧
      (∀ x ∈ [1], getProp (sampleTasks.heap x) (toPropertyKey (Val.str "TaskID")) ≠ Val.str "T1") ∧
      getProp (sampleTasks.heap 0) (toPropertyKey (Val.str "TaskID")) = Val.str "T1") ∧
    ∃ s', queueJob sampleTasks "UPDATE" "Tasks" (some 3) (Val.str "TaskID") (Val.str "T1")
        = Except.ok s' ∧
      s'.DB = sampleTasks.DB ∧
      s'.heap 0 "Status" = some (Val.str "Completed") ∧
      s'.heap 0 "TaskID" = some (Val.str "T1") ∧
      s'.heap 2 "Status" = some (Val.str "Old") := by
  have h1 : sampleTasks.DB.get "Tasks" = some ([1].map some ++ some 0 :: [some 2]) := rfl
  have h2 : ∀ x ∈ [1],
      getProp (sampleTasks.heap x) (toPropertyKey (Val.str "TaskID")) ≠ Val.str "T1" := by
    decide
  have h3 : getProp (sampleTasks.heap 0) (toPropertyKey (Val.str "TaskID")) = Val.str "T1" := by
    decide
  refine ⟨⟨h1, h2, h3⟩, ?_⟩
  obtain ⟨s', hq, hdb, hframe, hpatch, hkeep⟩ :=
    queueJob_update_first_match sampleTasks "Tasks" (some 3) (Val.str "TaskID") (Val.str "T1")
      [1] 0 [some 2] h1 h2 h3
  refine ⟨s', hq, hdb, ?_, ?_, ?_⟩
  · exact hpatch 3 "Status" (Val.str "Completed") rfl (by decide)
  · rw [hkeep "TaskID" (fun d hd => by cases hd; decide)]
    decide
  · rw [hframe 2 (by decide)]
    decide

/-- C4: when the array of `sheet` holds records, `queueJob('DELETE', ...)`
returns normally and leaves `DB[sheet]` equal to the sub-list, in the original
order, of the previous records whose key field differs from the key value:
every matching record is removed and no other; no object is modified and the
other arrays are untouched. -/
theorem queueJob_delete_filters (s : State) (sheet : String) (data : Option Ref)
    (keyField keyValue : Val) (refs : List Ref)
    (harr : s.DB.get sheet = some (refs.map some)) :
    ∃ s', queueJob s "DELETE" sheet data keyField keyValue = Except.ok s' ∧
      s'.DB.get sheet = some ((refs.filter fun x =>
          decide (getProp (s.heap x) (toPropertyKey keyField) ≠ keyValue)).map some) ∧
      s'.heap = s.heap ∧
      (∀ other, other ≠ sheet → s'.DB.get other = s.DB.get other) := by
  have hfilter := filterItems_objects s.heap (toPropertyKey keyField) keyValue refs
  refine ⟨_, queueJob_of_updateRam _ _ _ _ _ _ _
    (updateRam_delete s sheet data keyField keyValue _ _ harr hfilter), ?_, ?_, ?_⟩
  · rw [processWriteQueue_DB]
    exact DBStore.get_set_same _ _ _ _ harr
  · rw [processWriteQueue_heap]
  · intro other hne
    rw [processWriteQueue_DB]
    exact DBStore.get_set_other _ _ _ _ hne

/-- An instance of C4: both records with key T1 are removed, the record with
key T2 stays. -/
theorem queueJob_delete_filters_witness :
    sampleTasks.DB.get "Tasks" = some ([1, 0, 2].map some) ∧
    ∃ s', queueJob sampleTasks "DELETE" "Tasks" none (Val.str "TaskID") (Val.str "T1")
        = Except.ok s' ∧
      s'.DB.get "Tasks" = some [some 1] := by
  have h1 : sampleTasks.DB.get "Tasks" = some ([1, 0, 2].map some) := rfl
  refine ⟨h1, ?_⟩
  obtain ⟨s', hq, hdb, _, _⟩ :=
    queueJob_delete_filters sampleTasks "Tasks" none (Val.str "TaskID") (Val.str "T1")
      [1, 0, 2] h1
  refine ⟨s', hq, ?_⟩
  rw [hdb]
  decide

/-- C5: when the array of `sheet` holds records none of which has its key field
equal to the key value, `queueJob('UPDATE', ...)` and `queueJob('DELETE', ...)`
return normally, leave `DB` and every object unchanged, and push exactly one
job carrying the given type, sheet, payload, key field and key value at the
tail of `WRITE_QUEUE`: when a worker is draining, the queue is the old queue
followed by that job, and when none is, the worker started by the call has
shifted the head of that extended queue. -/
theorem queueJob_absent_key (s : State) (type sheet : String) (data : Option Ref)
    (keyField keyValue : Val) (refs : List Ref)
    (htype : type = "UPDATE" ∨ type = "DELETE")
    (harr : s.DB.get sheet = some (refs.map some))
    (habsent : ∀ x ∈ refs, getProp (s.heap x) (toPropertyKey keyField) ≠ keyValue) :
    ∃ s', queueJob s type sheet data keyField keyValue = Except.ok s' ∧
      s'.DB = s.DB ∧ s'.heap = s.heap ∧
      (s.isProcessingQueue = true →
        s'.WRITE_QUEUE
            = s.WRITE_QUEUE ++ [Job.mk type sheet data keyField keyValue (headersFor sheet)] ∧
          s'.worker = s.worker) ∧
      (s.isProcessingQueue = false →
        ∃ j, s'.worker = WorkerPc.remoteOp j ∧
          j :: s'.WRITE_QUEUE
            = s.WRITE_QUEUE ++ [Job.mk type sheet data keyField keyValue (headersFor sheet)]) := by
  have hram : updateRam s type sheet data keyField keyValue = Except.ok s := by
    rcases htype with h | h
    · subst h
      exact updateRam_update_absent s sheet data keyField keyValue _ harr
        (findItem_absent s.heap _ keyValue refs habsent)
    · subst h
      have hfilter := filterItems_objects s.heap (toPropertyKey keyField) keyValue refs
      have hall : (refs.filter fun x =>
          decide (getProp (s.heap x) (toPropertyKey keyField) ≠ keyValue)) = refs := by
        rw [List.filter_eq_self]
        intro x hx
        exact decide_eq_true (habsent x hx)
      rw [hall] at hfilter
      rw [updateRam_delete s sheet data keyField keyValue _ _ harr hfilter,
        DBStore.set_get_self _ _ _ harr]
  refine ⟨_, queueJob_of_updateRam _ _ _ _ _ _ _ hram, ?_, ?_, ?_, ?_⟩
  · rw [processWriteQueue_DB]
  · rw [processWriteQueue_heap]
  · intro hbusy
    rw [processWriteQueue_busy]
    · exact ⟨rfl, rfl⟩
    · exact hbusy
  · intro hidle
    obtain ⟨j, hw, hq, _⟩ := processWriteQueue_push_idle s
      (Job.mk type sheet data keyField keyValue (headersFor sheet)) hidle
    exact ⟨j, hw, hq⟩

/-- An instance of C5: an UPDATE for the absent key T7 changes no record and
its job is taken by the worker that the call starts. -/
theorem queueJob_absent_key_witness :
    (("UPDATE" = "UPDATE" ∨ "UPDATE" = "DELETE") ∧
      sampleTasks.DB.get "Tasks" = some ([1, 0, 2].map some) ∧
      (∀ x ∈ [1, 0, 2],
        getProp (sampleTasks.heap x) (toPropertyKey (Val.str "TaskID")) ≠ Val.str "T7")) ∧
    ∃ s', queueJob sampleTasks "UPDATE" "Tasks" (some 3) (Val.str "TaskID") (Val.str "T7")
        = Except.ok s' ∧
      s'.DB = sampleTasks.DB ∧ s'.heap = sampleTasks.heap ∧
      s'.worker = WorkerPc.remoteOp
        (Job.mk "UPDATE" "Tasks" (some 3) (Val.str "TaskID") (Val.str "T7") tasksHeaders) ∧
      s'.WRITE_QUEUE = [] := by
  have h1 : sampleTasks.DB.get "Tasks" = some ([1, 0, 2].map some) := rfl
  have h2 : ∀ x ∈ [1, 0, 2],
      getProp (sampleTasks.heap x) (toPropertyKey (Val.str "TaskID")) ≠ Val.str "T7" := by
    decide
  refine ⟨⟨Or.inl rfl, h1, h2⟩, ?_⟩
  obtain ⟨s', hq, hdb, hheap, _, hidle⟩ :=
    queueJob_absent_key sampleTasks "UPDATE" "Tasks" (some 3) (Val.str "TaskID") (Val.str "T7")
      [1, 0, 2] (Or.inl rfl) h1 h2
  obtain ⟨j, hw, hcons⟩ := hidle rfl
  have hq0 : sampleTasks.WRITE_QUEUE = [] := rfl
  rw [hq0, List.nil_append] at hcons
  have hj := (List.cons.inj hcons).1
  have hrest : s'.WRITE_QUEUE = [] := (List.cons.inj hcons).2
  refine ⟨s', hq, hdb, hheap, ?_, hrest⟩
  rw [hw, hj]
  rfl

/-- C6 fails as stated: the record with key T1 is present, the first patch
rewrites its key field to T9, and the second UPDATE on key T1 then finds no
record, so the field Status named in the second patch keeps its old value. -/
theorem queueJob_update_twice_counterexample :
    ∃ s1 s2,
      twoTasks.DB.Tasks = [some 1, some 0] ∧
      getProp (twoTasks.heap 0) "TaskID" = Val.str "T1" ∧
      queueJob twoTasks "UPDATE" "Tasks" (some 4) (Val.str "TaskID") (Val.str "T1")
        = Except.ok s1 ∧
      queueJob s1 "UPDATE" "Tasks" (some 3) (Val.str "TaskID") (Val.str "T1")
        = Except.ok s2 ∧
      s1.heap 3 "Status" = some (Val.str "Completed") ∧
      s2.heap 0 "Status" = some (Val.str "Pending") :=
  ⟨_, _, rfl, by decide, rfl, rfl, by decide, by decide⟩

/-- C6 (amended): when `r` is the first record of the array whose key field
equals the key value and the first patch leaves that key field equal to the
key value (it does not name the key field, or gives it the key value), then
after `queueJob('UPDATE')` with the first patch followed by
`queueJob('UPDATE')` with the second patch on the same key, the record has the
second patch's value for every field the second patch names, the first patch's
value for every field only the first patch names, and its original value for
every other field. A patch's fields are read when it is passed. -/
theorem queueJob_update_twice (s : State) (sheet : String) (data1 data2 : Option Ref)
    (keyField keyValue : Val) (pre : List Ref) (r : Ref) (post : List (Option Ref))
    (harr : s.DB.get sheet = some (pre.map some ++ some r :: post))
    (hpre : ∀ x ∈ pre, getProp (s.heap x) (toPropertyKey keyField) ≠ keyValue)
    (hr : getProp (s.heap r) (toPropertyKey keyField) = keyValue)
    (hkey : ∀ d v, data1 = some d → s.heap d (toPropertyKey keyField) = some v → v = keyValue) :
    ∃ s1 s2, queueJob s "UPDATE" sheet data1 keyField keyValue = Except.ok s1 ∧
      queueJob s1 "UPDATE" sheet data2 keyField keyValue = Except.ok s2 ∧
      (∀ d f v, data2 = some d → s1.heap d f = some v → s2.heap r f = some v) ∧
      (∀ d f v, data1 = some d → s.heap d f = some v →
        (∀ d2, data2 = some d2 → s1.heap d2 f = none) → s2.heap r f = some v) ∧
      (∀ f, (∀ d, data1 = some d → s.heap d f = none) →
        (∀ d, data2 = some d → s1.heap d f = none) → s2.heap r f = s.heap r f) := by
  obtain ⟨s1, hq1, hdb1, hheap1⟩ :=
    queueJob_update_heap s sheet data1 keyField keyValue pre r post harr hpre hr
  have hne : ∀ x ∈ pre, x ≠ r := by
    intro x hx hxr
    subst hxr
    exact hpre _ hx hr
  have hpre1 : ∀ x ∈ pre, getProp (s1.heap x) (toPropertyKey keyField) ≠ keyValue := by
    intro x hx
    rw [hheap1]
    cases data1 with
    | none => exact hpre x hx
    | some d => simpa [Heap.write, hne x hx] using hpre x hx
  have hr1 : getProp (s1.heap r) (toPropertyKey keyField) = keyValue := by
    rw [hheap1]
    cases data1 with
    | none => exact hr
    | some d =>
      cases hd : s.heap d (toPropertyKey keyField) with
      | none => simpa [Heap.write, objectAssign, getProp, hd] using hr
      | some v =>
        have hv := hkey d v rfl hd
        simp [Heap.write, objectAssign, getProp, hd, hv]
  have harr1 : s1.DB.get sheet = some (pre.map some ++ some r :: post) := by
    rw [hdb1]; exact harr
  obtain ⟨s2, hq2, _, hheap2⟩ :=
    queueJob_update_heap s1 sheet data2 keyField keyValue pre r post harr1 hpre1 hr1
  refine ⟨s1, s2, hq1, hq2, ?_, ?_, ?_⟩
  · intro d f v hd hv
    subst hd
    rw [hheap2]
    simp [Heap.write, objectAssign, hv]
  · intro d f v hd hv hnot
    subst hd
    rw [hheap2]
    cases data2 with
    | none => simp [hheap1, Heap.write, objectAssign, hv]
    | some d2 =>
      have h2 := hnot d2 rfl
      simp only [Heap.write, objectAssign, if_true, h2]
      simp [hheap1, Heap.write, objectAssign, hv]
  · intro f h1 h2
    rw [hheap2]
    cases data2 with
    | none =>
      cases data1 with
      | none => simp [hheap1]
      | some d1 => simp [hheap1, Heap.write, objectAssign, h1 d1 rfl]
    | some d2 =>
      have h2' := h2 d2 rfl
      simp only [Heap.write, objectAssign, if_true, h2']
      cases data1 with
      | none => simp [hheap1]
      | some d1 => simp [hheap1, Heap.write, objectAssign, h1 d1 rfl]

/-- An instance of the amended C6: two patches with the overlapping field
Status on the record with key T1. -/
theorem queueJob_update_twice_witness :
    (twoTasks.DB.get "Tasks" = some ([1].map some ++ some 0 :: []) ∧
      (∀ x ∈ [1], getProp (twoTasks.heap x) (toPropertyKey (Val.str "TaskID")) ≠ Val.str "T1") ∧
      getProp (twoTasks.heap 0) (toPropertyKey (Val.str "TaskID")) = Val.str "T1" ∧
      (∀ d v, some 5 = some d → twoTasks.heap d (toPropertyKey (Val.str "TaskID")) = some v →
        v = Val.str "T1")) ∧
    ∃ s1 s2,
      queueJob twoTasks "UPDATE" "Tasks" (some 5) (Val.str "TaskID") (Val.str "T1")
        = Except.ok s1 ∧
      queueJob s1 "UPDATE" "Tasks" (some 3) (Val.str "TaskID") (Val.str "T1")
        = Except.ok s2 ∧
      s2.heap 0 "Status" = some (Val.str "Completed") ∧
      s2.heap 0 "IsNil" = some (Val.str "FALSE") ∧
      s2.heap 0 "TaskID" = some (Val.str "T1") := by
  have h1 : twoTasks.DB.get "Tasks" = some ([1].map some ++ some 0 :: []) := rfl
  have h2 : ∀ x ∈ [1],
      getProp (twoTasks.heap x) (toPropertyKey (Val.str "TaskID")) ≠ Val.str "T1" := by
    decide
  have h3 : getProp (twoTasks.heap 0) (toPropertyKey (Val.str "TaskID")) = Val.str "T1" := by
    decide
  have h4 : ∀ d v, some 5 = some d →
      twoTasks.heap d (toPropertyKey (Val.str "TaskID")) = some v → v = Val.str "T1" := by
    intro d v hd hv
    cases hd
    have hn : twoTasks.heap 5 (toPropertyKey (Val.str "TaskID")) = none := by decide
    rw [hn] at hv
    cases hv
  refine ⟨⟨h1, h2, h3, h4⟩, ?_⟩
  obtain ⟨s1, s2, hq1, hq2, hsecond, hfirst, hkeep⟩ :=
    queueJob_update_twice twoTasks "Tasks" (some 5) (some 3) (Val.str "TaskID") (Val.str "T1")
      [1] 0 [] h1 h2 h3 h4
  have e : queueJob twoTasks "UPDATE" "Tasks" (some 5) (Val.str "TaskID") (Val.str "T1")
      = Except.ok _ := rfl
  rw [e] at hq1
  cases hq1
  refine ⟨_, s2, e, hq2, ?_, ?_, ?_⟩
  · exact hsecond 3 "Status" (Val.str "Completed") rfl (by decide)
  · exact hfirst 5 "IsNil" (Val.str "FALSE") rfl (by decide)
      (fun d2 hd2 => by cases hd2; decide)
  · rw [hkeep "TaskID" (fun d hd => by cases hd; decide) (fun d hd => by cases hd; decide)]
    decide

/-! ## Claims on the sync engine -/

theorem syncConvert_four (t : State) (g0 g1 g2 g3 : Option (List Row)) :
    syncConvert t [g0, g1, g2, g3]
      = ({ ((((t.store "Users" (arrayToObjects g0 usersHeaders)).store "Stations"
              (arrayToObjects g1 stationsHeaders)).store "Tasks"
              (arrayToObjects g2 tasksHeaders)).store "Groups"
              (arrayToObjects g3 groupsHeaders)) with isDbReady := true }, none) := rfl

/-- The four arrays after four successive replacements. -/
theorem store_four_records (t : State) (o0 o1 o2 o3 : List Obj) :
    ((((t.store "Users" o0).store "Stations" o1).store "Tasks" o2).store "Groups" o3).records
        "Users" = some (o0.map some) ∧
    ((((t.store "Users" o0).store "Stations" o1).store "Tasks" o2).store "Groups" o3).records
        "Stations" = some (o1.map some) ∧
    ((((t.store "Users" o0).store "Stations" o1).store "Tasks" o2).store "Groups" o3).records
        "Tasks" = some (o2.map some) ∧
    ((((t.store "Users" o0).store "Stations" o1).store "Tasks" o2).store "Groups" o3).records
        "Groups" = some (o3.map some) := by
  have bU1 := store_bounded_same t "Users" o0 (by decide)
  have bU2 := store_bounded_other _ "Stations" "Users" o1 (by decide) bU1
  have bU3 := store_bounded_other _ "Tasks" "Users" o2 (by decide) bU2
  have bS2 := store_bounded_same (t.store "Users" o0) "Stations" o1 (by decide)
  have bS3 := store_bounded_other _ "Tasks" "Stations" o2 (by decide) bS2
  have bT3 := store_bounded_same ((t.store "Users" o0).store "Stations" o1) "Tasks" o2
    (by decide)
  refine ⟨?_, ?_, ?_, ?_⟩
  · rw [store_records_other _ "Groups" "Users" o3 (by decide) bU3,
      store_records_other _ "Tasks" "Users" o2 (by decide) bU2,
      store_records_other _ "Stations" "Users" o1 (by decide) bU1,
      store_records_same _ _ _ (by decide)]
  · rw [store_records_other _ "Groups" "Stations" o3 (by decide) bS3,
      store_records_other _ "Tasks" "Stations" o2 (by decide) bS2,
      store_records_same _ _ _ (by decide)]
  · rw [store_records_other _ "Groups" "Tasks" o3 (by decide) bT3,
      store_records_same _ _ _ (by decide)]
  · exact store_records_same _ _ _ (by decide)

/-- A rejected bulk read is only logged: arrays, objects and `isDbReady` stay. -/
theorem syncResume_error (s : State) (e : JsError) :
    (syncResume s (Except.error e)).DB = s.DB ∧
    (syncResume s (Except.error e)).heap = s.heap ∧
    (syncResume s (Except.error e)).isDbReady = s.isDbReady ∧
    (syncResume s (Except.error e)).isSyncing = false :=
  ⟨rfl, rfl, rfl, rfl⟩

/-- C8: when `syncDatabase` is called while `isSyncing` or `isProcessingQueue`
is true, it returns at once (its promise is settled), no bulk read is issued
and the whole state, with `DB`, `isDbReady`, `isSyncing`, `isProcessingQueue`
and `WRITE_QUEUE`, is exactly as it was. -/
theorem syncDatabase_skips_when_busy (s : State)
    (hbusy : s.isSyncing = true ∨ s.isProcessingQueue = true) :
    syncDatabase s = (s, Promise.settled) ∧
    (syncDatabase s).1.bulkReads = s.bulkReads ∧
    (syncDatabase s).1.DB = s.DB ∧
    (syncDatabase s).1.isDbReady = s.isDbReady ∧
    (syncDatabase s).1.isSyncing = s.isSyncing ∧
    (syncDatabase s).1.isProcessingQueue = s.isProcessingQueue ∧
    (syncDatabase s).1.WRITE_QUEUE = s.WRITE_QUEUE := by
  have h : syncDatabase s = (s, Promise.settled) := by
    unfold syncDatabase
    rw [if_pos hbusy]
  rw [h]
  exact ⟨rfl, rfl, rfl, rfl, rfl, rfl, rfl⟩

/-- An instance of C8: the interval timer fires while the startup cycle is in flight. -/
theorem syncDatabase_skips_when_busy_witness :
    (startup.isSyncing = true ∨ startup.isProcessingQueue = true) ∧
    syncDatabase startup = (startup, Promise.settled) ∧
    (syncDatabase startup).1.bulkReads = 1 :=
  ⟨Or.inl rfl, (syncDatabase_skips_when_busy startup (Or.inl rfl)).1,
    (syncDatabase_skips_when_busy startup (Or.inl rfl)).2.1⟩

/-- C9: when `syncDatabase` is called with `isSyncing` and `isProcessingQueue`
both false it sets `isSyncing` and issues exactly one bulk read (the count
grows by one at the call and the continuation issues none); and in whatever
state `t` the cycle resumes with a response of one grid per collection, each of
Users, Stations, Tasks and Groups afterwards holds exactly the records
`arrayToObjects` builds from its grid with that collection's headers,
`isDbReady` is true and `isSyncing` is false. -/
theorem syncDatabase_replaces_all (s t : State) (g0 g1 g2 g3 : Option (List Row))
    (hs : s.isSyncing = false) (hq : s.isProcessingQueue = false) :
    (syncDatabase s).1.bulkReads = s.bulkReads + 1 ∧
    (syncDatabase s).1.isSyncing = true ∧
    (syncDatabase s).2 = Promise.pending ∧
    (syncResume t (Except.ok [g0, g1, g2, g3])).bulkReads = t.bulkReads ∧
    (syncResume t (Except.ok [g0, g1, g2, g3])).records "Users"
      = some ((arrayToObjects g0 usersHeaders).map some) ∧
    (syncResume t (Except.ok [g0, g1, g2, g3])).records "Stations"
      = some ((arrayToObjects g1 stationsHeaders).map some) ∧
    (syncResume t (Except.ok [g0, g1, g2, g3])).records "Tasks"
      = some ((arrayToObjects g2 tasksHeaders).map some) ∧
    (syncResume t (Except.ok [g0, g1, g2, g3])).records "Groups"
      = some ((arrayToObjects g3 groupsHeaders).map some) ∧
    (syncResume t (Except.ok [g0, g1, g2, g3])).isDbReady = true ∧
    (syncResume t (Except.ok [g0, g1, g2, g3])).isSyncing = false ∧
    syncFails t (Except.ok [g0, g1, g2, g3]) = false := by
  have hstart : syncDatabase s
      = ({ s with isSyncing := true, bulkReads := s.bulkReads + 1 }, Promise.pending) := by
    unfold syncDatabase
    rw [if_neg]
    simp [hs, hq]
  obtain ⟨hU, hS, hT, hG⟩ := store_four_records t (arrayToObjects g0 usersHeaders)
    (arrayToObjects g1 stationsHeaders) (arrayToObjects g2 tasksHeaders)
    (arrayToObjects g3 groupsHeaders)
  rw [hstart]
  refine ⟨rfl, rfl, rfl, ?_, hU, hS, hT, hG, rfl, rfl, rfl⟩
  simp only [syncResume, syncConvert_four, State.store]

/-- An instance of C9: a cycle started in a state with two task records
resumes with a response holding one task row. -/
theorem syncDatabase_replaces_all_witness :
    (twoTasks.isSyncing = false ∧ twoTasks.isProcessingQueue = false) ∧
    (syncDatabase twoTasks).1.bulkReads = 1 ∧
    (syncResume (syncDatabase twoTasks).1 (Except.ok fullResponse)).records "Tasks"
      = some ((arrayToObjects (some [tasksHeaders, ["T1", "link", "Daily", "U1", "Pending"]])
          tasksHeaders).map some) ∧
    (syncResume (syncDatabase twoTasks).1 (Except.ok fullResponse)).isDbReady = true := by
  have h := syncDatabase_replaces_all twoTasks (syncDatabase twoTasks).1
    (some [usersHeaders, ["U1", "Asha", "User", "North", "Alpha", "asha@example.org", "K1"]])
    (some [stationsHeaders])
    (some [tasksHeaders, ["T1", "link", "Daily", "U1", "Pending"]])
    (some [groupsHeaders]) rfl rfl
  exact ⟨⟨rfl, rfl⟩, h.1, h.2.2.2.2.2.2.1, h.2.2.2.2.2.2.2.2.1⟩

/-- C10 fails on the code: a response with two entries makes the conversion
raise a TypeError at `data[2].values`, after `DB.Users` and `DB.Stations` were
already replaced; the cycle ends in the `catch` block with Users emptied and
Tasks kept. -/
theorem sync_failure_replaces_some :
    ∃ s1 s2,
      run startup [Event.bulkReadDone (Except.ok fullResponse), Event.syncTick] = some s1 ∧
      s1.DB.Users = [some 0] ∧ s1.DB.Tasks = [some 1] ∧ s1.isSyncing = true ∧
      getProp (s1.heap 0) "UserID" = Val.str "U1" ∧
      syncFails s1 (Except.ok shortResponse) = true ∧
      step s1 (Event.bulkReadDone (Except.ok shortResponse)) = some s2 ∧
      s2.DB.Users = [] ∧ s2.DB.Tasks = [some 1] ∧ s2.isSyncing = false :=
  ⟨_, _, rfl, rfl, rfl, rfl, by decide, rfl, rfl, rfl, rfl, rfl⟩

/-! ## Claims on interleavings -/

/-- C7 fails on the code: a write route calls `queueJob` while the startup
cycle awaits its bulk read; the worker starts and both flags are true. -/
theorem both_flags_true_after_startup_write :
    ∃ s, run startup [addT1] = some s ∧ s.isSyncing = true ∧ s.isProcessingQueue = true :=
  ⟨_, rfl, rfl, rfl⟩

/-- C1 fails on the code: a record is added while the startup cycle awaits its
bulk read; when the cycle completes with the snapshot of the remote store, the
record is gone from `DB.Tasks` although its ADD job is still held by the
worker and has not been replayed. -/
theorem sync_completion_drops_unreplayed_add :
    ∃ s1 s2 job,
      run startup [addT1] = some s1 ∧
      s1.isSyncing = true ∧
      s1.DB.Tasks = [some 0] ∧
      getProp (s1.heap 0) "TaskID" = Val.str "T1" ∧
      step s1 (Event.bulkReadDone (Except.ok headerOnlyResponse)) = some s2 ∧
      s2.worker = WorkerPc.remoteOp job ∧
      job.type = "ADD" ∧ job.data = some 0 ∧
      s2.DB.Tasks = [] ∧ s2.isDbReady = true :=
  ⟨_, _, _, rfl, rfl, rfl, by decide, rfl, rfl, rfl, rfl, rfl, rfl⟩

/-! ## Claims on the worker -/

theorem updateRam_frame (s s1 : State) (type sheet : String) (data : Option Ref)
    (keyField keyValue : Val) (h : updateRam s type sheet data keyField keyValue = Except.ok s1) :
    s1.WRITE_QUEUE = s.WRITE_QUEUE ∧ s1.worker = s.worker ∧
    s1.isProcessingQueue = s.isProcessingQueue ∧ s1.isSyncing = s.isSyncing ∧
    s1.isDbReady = s.isDbReady ∧ s1.dbReadyPromise = s.dbReadyPromise ∧
    s1.bulkReads = s.bulkReads ∧ s1.nextRef = s.nextRef := by
  unfold updateRam at h
  split_ifs at h
  · split at h
    · cases h
    · cases h; exact ⟨rfl, rfl, rfl, rfl, rfl, rfl, rfl, rfl⟩
  · split at h
    · cases h
    · split at h
      · cases h
      · cases h; exact ⟨rfl, rfl, rfl, rfl, rfl, rfl, rfl, rfl⟩
      · split at h <;> cases h <;> exact ⟨rfl, rfl, rfl, rfl, rfl, rfl, rfl, rfl⟩
  · split at h
    · cases h
    · split at h
      · cases h
      · cases h; exact ⟨rfl, rfl, rfl, rfl, rfl, rfl, rfl, rfl⟩
  · cases h; exact ⟨rfl, rfl, rfl, rfl, rfl, rfl, rfl, rfl⟩

theorem queueJob_cases (s : State) (type sheet : String) (data : Option Ref)
    (keyField keyValue : Val) :
    (∃ s1, updateRam s type sheet data keyField keyValue = Except.ok s1 ∧
      queueJob s type sheet data keyField keyValue
        = Except.ok (processWriteQueue
            { s1 with WRITE_QUEUE := s1.WRITE_QUEUE ++
                [Job.mk type sheet data keyField keyValue (headersFor sheet)] })) ∨
    (∃ e, updateRam s type sheet data keyField keyValue = Except.error e ∧
      queueJob s type sheet data keyField keyValue = Except.error e) := by
  cases h : updateRam s type sheet data keyField keyValue with
  | error e => right; exact ⟨e, rfl, by simp only [queueJob, h]⟩
  | ok s1 => left; exact ⟨s1, rfl, queueJob_of_updateRam _ _ _ _ _ _ _ h⟩

theorem workerLoop_inv (s : State) (h : s.isProcessingQueue = true) : WorkerInv (workerLoop s) := by
  unfold workerLoop
  split
  · rename_i hq
    exact ⟨fun _ => ⟨hq, rfl⟩, fun hb => by cases hb⟩
  · refine ⟨fun hi => ?_, fun _ hw => ?_⟩
    · have hi2 : s.isProcessingQueue = false := hi
      rw [h] at hi2
      cases hi2
    · cases hw

theorem processWriteQueue_push_inv (s : State) (job : Job) (h : WorkerInv s) :
    WorkerInv (processWriteQueue { s with WRITE_QUEUE := s.WRITE_QUEUE ++ [job] }) := by
  by_cases hb : s.isProcessingQueue = true
  · have hpw : processWriteQueue { s with WRITE_QUEUE := s.WRITE_QUEUE ++ [job] }
        = { s with WRITE_QUEUE := s.WRITE_QUEUE ++ [job] } := processWriteQueue_busy _ hb
    rw [hpw]
    refine ⟨fun hi => ?_, fun _ => h.2 hb⟩
    have hi2 : s.isProcessingQueue = false := hi
    rw [hb] at hi2
    cases hi2
  · have hne : ¬ ((s.isProcessingQueue = true) ∨ (s.WRITE_QUEUE ++ [job]).length = 0) := by
      simp [hb]
    have hpw : processWriteQueue { s with WRITE_QUEUE := s.WRITE_QUEUE ++ [job] }
        = workerLoop { s with WRITE_QUEUE := s.WRITE_QUEUE ++ [job], isProcessingQueue := true } := by
      unfold processWriteQueue
      exact if_neg hne
    rw [hpw]
    exact workerLoop_inv _ rfl

theorem callQueueJob_inv (s : State) (type sheet : String) (payload : Option Obj)
    (keyField keyValue : Val) (h : WorkerInv s) :
    WorkerInv (callQueueJob s type sheet payload keyField keyValue) := by
  unfold callQueueJob
  have h1 : WorkerInv (match payload with
      | none => s
      | some o => { s with heap := Heap.write s.heap s.nextRef o, nextRef := s.nextRef + 1 }) := by
    cases payload <;> exact h
  generalize (match payload with
      | none => s
      | some o => { s with heap := Heap.write s.heap s.nextRef o, nextRef := s.nextRef + 1 }) = t
    at h1 ⊢
  rcases queueJob_cases t type sheet (payload.map fun _ => s.nextRef) keyField keyValue with
    ⟨s1, hram, hq⟩ | ⟨e, _, hq⟩
  · simp only [hq]
    obtain ⟨f1, f2, f3, _⟩ := updateRam_frame _ _ _ _ _ _ _ hram
    have h2 : WorkerInv s1 := by
      unfold WorkerInv
      rw [f1, f2, f3]
      exact h1
    exact processWriteQueue_push_inv s1 _ h2
  · simp only [hq]
    exact h1

theorem syncDatabase_inv (s : State) (h : WorkerInv s) : WorkerInv (syncDatabase s).1 := by
  unfold syncDatabase
  split_ifs
  · exact h
  · exact h

theorem store_frame (s : State) (sheet : String) (objs : List Obj) :
    (s.store sheet objs).WRITE_QUEUE = s.WRITE_QUEUE ∧ (s.store sheet objs).worker = s.worker ∧
    (s.store sheet objs).isProcessingQueue = s.isProcessingQueue ∧
    (s.store sheet objs).isDbReady = s.isDbReady ∧
    (s.store sheet objs).isSyncing = s.isSyncing ∧
    (s.store sheet objs).dbReadyPromise = s.dbReadyPromise :=
  ⟨rfl, rfl, rfl, rfl, rfl, rfl⟩

theorem syncConvert_frame (s : State) (data : Response) :
    (syncConvert s data).1.WRITE_QUEUE = s.WRITE_QUEUE ∧
    (syncConvert s data).1.worker = s.worker ∧
    (syncConvert s data).1.isProcessingQueue = s.isProcessingQueue ∧
    (syncConvert s data).1.dbReadyPromise = s.dbReadyPromise := by
  unfold syncConvert
  split
  · exact ⟨rfl, rfl, rfl, rfl⟩
  · split
    · exact ⟨rfl, rfl, rfl, rfl⟩
    · split
      · exact ⟨rfl, rfl, rfl, rfl⟩
      · split <;> exact ⟨rfl, rfl, rfl, rfl⟩

theorem syncResume_inv (s : State) (outcome : Except JsError Response) (h : WorkerInv s) :
    WorkerInv (syncResume s outcome) := by
  cases outcome with
  | error e => exact h
  | ok data =>
    obtain ⟨f1, f2, f3, _⟩ := syncConvert_frame s data
    unfold WorkerInv syncResume
    simp only [f1, f2, f3]
    exact h

theorem workerRemoteDone_inv (s : State) (ok : Bool) (h : WorkerInv s) :
    WorkerInv (workerRemoteDone s ok) := by
  unfold workerRemoteDone
  split
  · rename_i job hw
    have hb : s.isProcessingQueue = true := by
      by_cases hb : s.isProcessingQueue = true
      · exact hb
      · have hw2 := (h.1 (by simpa using hb)).2
        rw [hw] at hw2
        cases hw2
    cases ok with
    | true => exact ⟨fun hi => by simp [hb] at hi, fun _ => by simp⟩
    | false => exact workerLoop_inv s hb
  · exact h

theorem workerDelayDone_inv (s : State) (h : WorkerInv s) : WorkerInv (workerDelayDone s) := by
  unfold workerDelayDone
  split
  · rename_i hw
    have hb : s.isProcessingQueue = true := by
      by_cases hb : s.isProcessingQueue = true
      · exact hb
      · have hw2 := (h.1 (by simpa using hb)).2
        rw [hw] at hw2
        cases hw2
    exact workerLoop_inv s hb
  · exact h

theorem step_inv (s s' : State) (e : Event) (h : WorkerInv s) (hs : step s e = some s') :
    WorkerInv s' := by
  cases e with
  | request type sheet payload keyField keyValue =>
    simp only [step, Option.some.injEq] at hs
    subst hs
    exact callQueueJob_inv _ _ _ _ _ _ h
  | syncTick =>
    simp only [step, Option.some.injEq] at hs
    subst hs
    exact syncDatabase_inv s h
  | bulkReadDone outcome =>
    simp only [step] at hs
    split_ifs at hs
    cases hs
    exact syncResume_inv s outcome h
  | remoteDone ok =>
    simp only [step] at hs
    split at hs
    · cases hs; exact workerRemoteDone_inv s ok h
    · cases hs
  | delayDone =>
    simp only [step] at hs
    split at hs
    · cases hs; exact workerDelayDone_inv s h
    · cases hs

theorem run_inv (es : List Event) : ∀ (s s' : State), WorkerInv s → run s es = some s' →
    WorkerInv s' := by
  induction es with
  | nil => intro s s' h hr; simp only [run, Option.some.injEq] at hr; subst hr; exact h
  | cons e es ih =>
    intro s s' h hr
    simp only [run] at hr
    cases hst : step s e with
    | none => rw [hst] at hr; cases hr
    | some s1 =>
      rw [hst] at hr
      exact ih s1 s' (step_inv s s1 e h hst) hr

theorem startup_inv : WorkerInv startup :=
  ⟨fun _ => ⟨rfl, rfl⟩, fun h => by cases h⟩

/-- C12: `processWriteQueue` called while `isProcessingQueue` is true returns
at once with the state unchanged (no job popped, no flag changed); hence a
`queueJob` call that returns during a drain leaves the suspended worker and
the flags as they were and only appends its job at the tail of `WRITE_QUEUE`:
no second loop is started. -/
theorem processWriteQueue_reentry (s : State) (hbusy : s.isProcessingQueue = true) :
    processWriteQueue s = s ∧
    ∀ (type sheet : String) (data : Option Ref) (keyField keyValue : Val) (s' : State),
      queueJob s type sheet data keyField keyValue = Except.ok s' →
        s'.WRITE_QUEUE
            = s.WRITE_QUEUE ++ [Job.mk type sheet data keyField keyValue (headersFor sheet)] ∧
        s'.worker = s.worker ∧ s'.isProcessingQueue = true ∧
        s'.isSyncing = s.isSyncing ∧ s'.isDbReady = s.isDbReady := by
  refine ⟨processWriteQueue_busy s hbusy, ?_⟩
  intro type sheet data keyField keyValue s' hq
  rcases queueJob_cases s type sheet data keyField keyValue with ⟨s1, hram, hq1⟩ | ⟨e, _, hq1⟩
  · rw [hq1] at hq
    obtain ⟨f1, f2, f3, f4, f5, _⟩ := updateRam_frame _ _ _ _ _ _ _ hram
    have hb1 : s1.isProcessingQueue = true := by rw [f3]; exact hbusy
    have hpw : processWriteQueue
        { s1 with WRITE_QUEUE := s1.WRITE_QUEUE ++
            [Job.mk type sheet data keyField keyValue (headersFor sheet)] }
        = { s1 with WRITE_QUEUE := s1.WRITE_QUEUE ++
            [Job.mk type sheet data keyField keyValue (headersFor sheet)] } :=
      processWriteQueue_busy _ hb1
    rw [hpw] at hq
    cases hq
    exact ⟨by rw [← f1], f2, hb1, f4, f5⟩
  · rw [hq1] at hq
    cases hq

/-- An instance of C12: a second ADD arrives while the worker holds the first. -/
theorem processWriteQueue_reentry_witness :
    ∃ s s', run startup [addT1] = some s ∧ s.isProcessingQueue = true ∧
      processWriteQueue s = s ∧
      queueJob s "ADD" "Tasks" (some 0) Val.undefined Val.undefined = Except.ok s' ∧
      s'.WRITE_QUEUE = [Job.mk "ADD" "Tasks" (some 0) Val.undefined Val.undefined tasksHeaders] ∧
      s'.worker = s.worker :=
  ⟨_, _, rfl, rfl, (processWriteQueue_reentry _ rfl).1, rfl,
    ((processWriteQueue_reentry _ rfl).2 "ADD" "Tasks" (some 0) Val.undefined Val.undefined _
      rfl).1,
    ((processWriteQueue_reentry _ rfl).2 "ADD" "Tasks" (some 0) Val.undefined Val.undefined _
      rfl).2.1⟩

/-- C13 fails on the code: the 300 ms timer is awaited inside the `try` block,
so when the remote operation of the first job fails the `catch` block runs and
the loop shifts the second job and starts its remote operation in the same
turn, with no delay in between (after a success the worker waits at the
timer). -/
theorem failed_job_skips_delay :
    ∃ s sFail sOk job1 job2,
      run startup [addT1, addT2] = some s ∧
      s.worker = WorkerPc.remoteOp job1 ∧ s.WRITE_QUEUE = [job2] ∧
      step s (Event.remoteDone false) = some sFail ∧
      sFail.worker = WorkerPc.remoteOp job2 ∧
      step s (Event.remoteDone true) = some sOk ∧
      sOk.worker = WorkerPc.delay ∧ sOk.WRITE_QUEUE = [job2] :=
  ⟨_, _, _, _, _, rfl, rfl, rfl, rfl, rfl, rfl, rfl, rfl⟩

/-- C14: in every state reachable from startup in which no worker is draining
(`isProcessingQueue` is false), a `queueJob` call that returns has started a
worker: on return `isProcessingQueue` is true, the job just enqueued is the one
shifted from the head of the queue, the worker is suspended in the remote
operation of that job (the call did not wait for it) and the queue is empty. -/
theorem queueJob_starts_worker (es : List Event) (s s' : State) (type sheet : String)
    (data : Option Ref) (keyField keyValue : Val)
    (hreach : run startup es = some s) (hidle : s.isProcessingQueue = false)
    (hcall : queueJob s type sheet data keyField keyValue = Except.ok s') :
    s'.isProcessingQueue = true ∧
    s'.worker = WorkerPc.remoteOp (Job.mk type sheet data keyField keyValue (headersFor sheet)) ∧
    s'.WRITE_QUEUE = [] := by
  have hinv := run_inv es startup s startup_inv hreach
  obtain ⟨hq0, _⟩ := hinv.1 hidle
  rcases queueJob_cases s type sheet data keyField keyValue with ⟨s1, hram, hq1⟩ | ⟨e, _, hq1⟩
  · rw [hq1] at hcall
    obtain ⟨f1, f2, f3, _⟩ := updateRam_frame _ _ _ _ _ _ _ hram
    have hi1 : s1.isProcessingQueue = false := by rw [f3]; exact hidle
    obtain ⟨j, hw, hcons, hb⟩ := processWriteQueue_push_idle s1
      (Job.mk type sheet data keyField keyValue (headersFor sheet)) hi1
    have hcons2 := hcons.trans (by rw [f1, hq0, List.nil_append] :
      s1.WRITE_QUEUE ++ [Job.mk type sheet data keyField keyValue (headersFor sheet)]
        = [Job.mk type sheet data keyField keyValue (headersFor sheet)])
    cases hcall
    obtain ⟨hj, hrest⟩ := List.cons.inj hcons2
    exact ⟨hb, by rw [hw, hj], hrest⟩
  · rw [hq1] at hcall
    cases hcall

/-- An instance of C14: the first write after the startup cycle has completed. -/
theorem queueJob_starts_worker_witness :
    ∃ s s',
      run startup [Event.bulkReadDone (Except.ok headerOnlyResponse)] = some s ∧
      s.isProcessingQueue = false ∧
      queueJob s "DELETE" "Users" none (Val.str "UserID") (Val.str "U1") = Except.ok s' ∧
      s'.isProcessingQueue = true ∧
      s'.worker = WorkerPc.remoteOp
        (Job.mk "DELETE" "Users" none (Val.str "UserID") (Val.str "U1") (headersFor "Users")) ∧
      s'.WRITE_QUEUE = [] :=
  ⟨_, _, rfl, rfl, rfl,
    queueJob_starts_worker [Event.bulkReadDone (Except.ok headerOnlyResponse)] _ _
      "DELETE" "Users" none (Val.str "UserID") (Val.str "U1") rfl rfl rfl⟩

/-- C15: when the remote operation of the job held by the worker raises an
error, the continuation returns normally and only that job is gone: `DB` and
every object are unchanged, the queue loses nothing but the head that the loop
shifts next (the failed job is not put back), and the state is the one reached
after a successful operation followed by its delay; with a job still queued
the worker keeps draining and holds that job, with none the drain ends. -/
theorem workerRemoteDone_failure (s : State) (job : Job)
    (hw : s.worker = WorkerPc.remoteOp job) :
    step s (Event.remoteDone false) = some (workerRemoteDone s false) ∧
    (workerRemoteDone s false).DB = s.DB ∧
    (workerRemoteDone s false).heap = s.heap ∧
    (workerRemoteDone s false).WRITE_QUEUE = s.WRITE_QUEUE.tail ∧
    workerRemoteDone s false = workerDelayDone (workerRemoteDone s true) ∧
    (∀ next rest, s.WRITE_QUEUE = next :: rest →
      (workerRemoteDone s false).worker = WorkerPc.remoteOp next ∧
      (workerRemoteDone s false).WRITE_QUEUE = rest ∧
      (workerRemoteDone s false).isProcessingQueue = s.isProcessingQueue) ∧
    (s.WRITE_QUEUE = [] →
      (workerRemoteDone s false).worker = WorkerPc.idle ∧
      (workerRemoteDone s false).isProcessingQueue = false) := by
  have h1 : workerRemoteDone s false = workerLoop s := by
    simp only [workerRemoteDone, hw]
    rfl
  have h2 : workerDelayDone (workerRemoteDone s true) = workerLoop s := by
    simp only [workerRemoteDone, hw, workerDelayDone]
    unfold workerLoop
    cases s.WRITE_QUEUE <;> simp
  refine ⟨by simp only [step, hw], ?_, ?_, ?_, by rw [h1, h2], ?_, ?_⟩
  · rw [h1]; unfold workerLoop; split <;> rfl
  · rw [h1]; unfold workerLoop; split <;> rfl
  · rw [h1]; unfold workerLoop; cases s.WRITE_QUEUE <;> rfl
  · intro next rest hq
    rw [h1]
    unfold workerLoop
    rw [hq]
    exact ⟨rfl, rfl, rfl⟩
  · intro hq
    rw [h1]
    unfold workerLoop
    rw [hq]
    exact ⟨rfl, rfl⟩

/-- An instance of C15: the first of two queued ADD jobs fails. -/
theorem workerRemoteDone_failure_witness :
    ∃ s job1 job2, run startup [addT1, addT2] = some s ∧
      s.worker = WorkerPc.remoteOp job1 ∧ s.WRITE_QUEUE = [job2] ∧
      (workerRemoteDone s false).worker = WorkerPc.remoteOp job2 ∧
      (workerRemoteDone s false).WRITE_QUEUE = [] ∧
      (workerRemoteDone s false).DB = s.DB :=
  ⟨_, _, _, rfl, rfl, rfl,
    ((workerRemoteDone_failure _ _ rfl).2.2.2.2.2.1 _ _ rfl).1,
    ((workerRemoteDone_failure _ _ rfl).2.2.2.2.2.1 _ _ rfl).2.1,
    (workerRemoteDone_failure _ _ rfl).2.1⟩

/-! ## Order of replay -/

/-- The loop head holds the job it shifted and the queue keeps the rest. -/
theorem workerLoop_shift (s : State) :
    workerLoopShift s ++ (workerLoop s).WRITE_QUEUE = s.WRITE_QUEUE ∧
    (∀ j, workerLoopShift s = [j] → (workerLoop s).worker = WorkerPc.remoteOp j) := by
  unfold workerLoopShift workerLoop
  cases s.WRITE_QUEUE with
  | nil => exact ⟨rfl, fun j hj => by cases hj⟩
  | cons a rest => exact ⟨rfl, fun j hj => by cases hj; rfl⟩

theorem processWriteQueue_shift (s : State) :
    processWriteQueueShift s ++ (processWriteQueue s).WRITE_QUEUE = s.WRITE_QUEUE := by
  unfold processWriteQueueShift processWriteQueue
  split_ifs
  · rfl
  · exact (workerLoop_shift _).1

theorem callQueueJob_eq (s : State) (type sheet : String) (payload : Option Obj)
    (keyField keyValue : Val) :
    callQueueJob s type sheet payload keyField keyValue
      = (match queueJob (payloadState s payload) type sheet (payload.map fun _ => s.nextRef)
            keyField keyValue with
          | Except.ok s2 => s2
          | Except.error _ => payloadState s payload) := rfl

theorem payloadState_queue (s : State) (payload : Option Obj) :
    (payloadState s payload).WRITE_QUEUE = s.WRITE_QUEUE := by
  cases payload <;> rfl

theorem step_queue (s s1 : State) (e : Event) (hs : step s e = some s1) :
    s.WRITE_QUEUE ++ pushedBy s e = poppedBy s e ++ s1.WRITE_QUEUE := by
  cases e with
  | request type sheet payload keyField keyValue =>
    simp only [step, Option.some.injEq] at hs
    subst hs
    rw [callQueueJob_eq]
    simp only [pushedBy, poppedBy, queueJobPush, queueJobShift]
    rcases queueJob_cases (payloadState s (payload.map objLit)) type sheet
        ((payload.map objLit).map fun _ => s.nextRef) keyField keyValue with ⟨t, hram, hq⟩ | ⟨e, hram, hq⟩
    · simp only [hram, hq]
      rw [processWriteQueue_shift]
      rw [(updateRam_frame _ _ _ _ _ _ _ hram).1, payloadState_queue]
    · simp only [hram, hq, List.append_nil, List.nil_append, payloadState_queue]
  | syncTick =>
    simp only [step, Option.some.injEq] at hs
    subst hs
    simp only [pushedBy, poppedBy, List.append_nil, List.nil_append]
    unfold syncDatabase
    split_ifs <;> rfl
  | bulkReadDone outcome =>
    simp only [step] at hs
    split_ifs at hs
    cases hs
    simp only [pushedBy, poppedBy, List.append_nil, List.nil_append]
    cases outcome with
    | error e => rfl
    | ok data => exact (syncConvert_frame s data).1.symm
  | remoteDone ok =>
    simp only [step] at hs
    split at hs
    · rename_i job hw
      cases hs
      simp only [pushedBy, poppedBy, workerRemoteDone, hw, List.append_nil]
      cases ok with
      | true => rfl
      | false => exact (workerLoop_shift s).1.symm
    · cases hs
  | delayDone =>
    simp only [step] at hs
    split at hs
    · rename_i hw
      cases hs
      simp only [pushedBy, poppedBy, workerDelayDone, hw, List.append_nil]
      exact (workerLoop_shift s).1.symm
    · cases hs

theorem runLog_queue (es : List Event) : ∀ (s s' : State) (pushed popped : List Job),
    runLog s es = some (s', pushed, popped) →
      run s es = some s' ∧ s.WRITE_QUEUE ++ pushed = popped ++ s'.WRITE_QUEUE := by
  induction es with
  | nil =>
    intro s s' pushed popped h
    simp only [runLog, Option.some.injEq, Prod.mk.injEq] at h
    obtain ⟨h1, h2, h3⟩ := h
    subst h1 h2 h3
    exact ⟨rfl, by simp⟩
  | cons e es ih =>
    intro s s' pushed popped h
    simp only [runLog] at h
    cases hst : step s e with
    | none => rw [hst] at h; cases h
    | some s1 =>
      rw [hst] at h
      simp only at h
      cases hr : runLog s1 es with
      | none => rw [hr] at h; cases h
      | some r =>
        rw [hr] at h
        obtain ⟨r1, r2, r3⟩ := r
        simp only [Option.some.injEq, Prod.mk.injEq] at h
        obtain ⟨h1, h2, h3⟩ := h
        subst h1 h2 h3
        obtain ⟨hrun, hq⟩ := ih s1 r1 r2 r3 hr
        refine ⟨by simp only [run, hst, hrun], ?_⟩
        rw [← List.append_assoc, step_queue s s1 e hst, List.append_assoc, hq,
          List.append_assoc]

/-- C11: along every sequence of turns of the event loop from startup (calls of
`queueJob` interleaved with worker steps and sync cycles), the jobs popped by
the worker, in order, followed by the jobs still in `WRITE_QUEUE`, are exactly
the jobs enqueued, in the order of their `queueJob` calls, whatever their
sheets: the popped sequence is a prefix of the enqueued one, and once the
drain is complete (`isProcessingQueue` is false) the two are equal. -/
theorem popped_prefix_of_enqueued (es : List Event) (s : State) (pushed popped : List Job)
    (hrun : runLog startup es = some (s, pushed, popped)) :
    pushed = popped ++ s.WRITE_QUEUE ∧
    popped <+: pushed ∧
    (s.isProcessingQueue = false → popped = pushed) := by
  obtain ⟨hr, hq⟩ := runLog_queue es startup s pushed popped hrun
  have h0 : startup.WRITE_QUEUE = [] := rfl
  rw [h0, List.nil_append] at hq
  refine ⟨hq, ⟨s.WRITE_QUEUE, hq.symm⟩, fun hidle => ?_⟩
  have hinv := run_inv es startup s startup_inv hr
  rw [hq, (hinv.1 hidle).1, List.append_nil]

/-- An instance of C11: two writes to different sheets, the first replayed
with success and the second with an error, after which the queue is drained. -/
theorem popped_prefix_of_enqueued_witness :
    ∃ s job1 job2,
      runLog startup
        [addT1,
         Event.request "DELETE" "Users" none (Val.str "UserID") (Val.str "U1"),
         Event.remoteDone true, Event.delayDone, Event.remoteDone false]
        = some (s, [job1, job2], [job1, job2]) ∧
      job1.sheet = "Tasks" ∧ job2.sheet = "Users" ∧
      [job1, job2] = [job1, job2] ++ s.WRITE_QUEUE ∧
      s.isProcessingQueue = false :=
  ⟨_, _, _, rfl, rfl, rfl,
    (popped_prefix_of_enqueued
      [addT1,
       Event.request "DELETE" "Users" none (Val.str "UserID") (Val.str "U1"),
       Event.remoteDone true, Event.delayDone, Event.remoteDone false] _ _ _ rfl).1,
    rfl⟩

/-! ## Claims on the readiness gate -/

theorem processWriteQueue_ready (s : State) :
    (processWriteQueue s).isDbReady = s.isDbReady := by
  unfold processWriteQueue workerLoop
  split_ifs
  · rfl
  · split <;> rfl

theorem callQueueJob_ready (s : State) (type sheet : String) (payload : Option Obj)
    (keyField keyValue : Val) :
    (callQueueJob s type sheet payload keyField keyValue).isDbReady = s.isDbReady := by
  rw [callQueueJob_eq]
  have hp : (payloadState s payload).isDbReady = s.isDbReady := by cases payload <;> rfl
  rcases queueJob_cases (payloadState s payload) type sheet (payload.map fun _ => s.nextRef)
      keyField keyValue with ⟨t, hram, hq⟩ | ⟨e, _, hq⟩
  · simp only [hq]
    rw [processWriteQueue_ready]
    exact (updateRam_frame _ _ _ _ _ _ _ hram).2.2.2.2.1.trans hp
  · simp only [hq]
    exact hp

theorem syncDatabase_ready (s : State) : (syncDatabase s).1.isDbReady = s.isDbReady := by
  unfold syncDatabase
  split_ifs <;> rfl

theorem syncConvert_ready (s : State) (data : Response) :
    ((syncConvert s data).2.isSome = true → (syncConvert s data).1.isDbReady = s.isDbReady) ∧
    ((syncConvert s data).2.isSome = false → (syncConvert s data).1.isDbReady = true) := by
  rcases data with _ | ⟨g0, _ | ⟨g1, _ | ⟨g2, _ | ⟨g3, rest⟩⟩⟩⟩
  · exact ⟨fun _ => rfl, fun h => by cases h⟩
  · exact ⟨fun _ => rfl, fun h => by cases h⟩
  · exact ⟨fun _ => rfl, fun h => by cases h⟩
  · exact ⟨fun _ => rfl, fun h => by cases h⟩
  · exact ⟨fun h => (by cases h), fun _ => rfl⟩

theorem worker_ready (s : State) (ok : Bool) :
    (workerRemoteDone s ok).isDbReady = s.isDbReady ∧
    (workerDelayDone s).isDbReady = s.isDbReady := by
  have hl : (workerLoop s).isDbReady = s.isDbReady := by
    unfold workerLoop; split <;> rfl
  constructor
  · unfold workerRemoteDone
    split
    · cases ok
      · exact hl
      · rfl
    · rfl
  · unfold workerDelayDone
    split
    · exact hl
    · rfl

/-- One turn of the engine changes `isDbReady` only by setting it at the
successful completion of a cycle. -/
theorem step_ready (s s' : State) (e : Event) (hs : step s e = some s') :
    (s.isDbReady = true → s'.isDbReady = true) ∧
    (s.isDbReady = false → s'.isDbReady = true →
      ∃ data, e = Event.bulkReadDone (Except.ok data) ∧ s.isSyncing = true ∧
        syncFails s (Except.ok data) = false) := by
  have key : s'.isDbReady = s.isDbReady ∨
      ∃ data, e = Event.bulkReadDone (Except.ok data) ∧ s.isSyncing = true ∧
        syncFails s (Except.ok data) = false ∧ s'.isDbReady = true := by
    cases e with
    | request type sheet payload keyField keyValue =>
      simp only [step, Option.some.injEq] at hs
      subst hs
      exact Or.inl (callQueueJob_ready _ _ _ _ _ _)
    | syncTick =>
      simp only [step, Option.some.injEq] at hs
      subst hs
      exact Or.inl (syncDatabase_ready s)
    | bulkReadDone outcome =>
      simp only [step] at hs
      split_ifs at hs with hsync
      cases hs
      cases outcome with
      | error e => exact Or.inl rfl
      | ok data =>
        cases hf : (syncConvert s data).2.isSome with
        | true => exact Or.inl ((syncConvert_ready s data).1 hf)
        | false =>
          exact Or.inr ⟨data, rfl, hsync, hf, (syncConvert_ready s data).2 hf⟩
    | remoteDone ok =>
      simp only [step] at hs
      split at hs
      · cases hs; exact Or.inl (worker_ready s ok).1
      · cases hs
    | delayDone =>
      simp only [step] at hs
      split at hs
      · cases hs; exact Or.inl (worker_ready s true).2
      · cases hs
  rcases key with h | ⟨data, he, hsync, hf, hr⟩
  · exact ⟨fun h1 => h.trans h1, fun h0 h1 => by rw [h, h0] at h1; cases h1⟩
  · exact ⟨fun _ => hr, fun _ _ => ⟨data, he, hsync, hf⟩⟩

theorem serverStep_ready (v v' : Server) (e : ServerEvent) (hs : serverStep v e = some v') :
    (v.core.isDbReady = true → v'.core.isDbReady = true) ∧
    (v.core.isDbReady = false → v'.core.isDbReady = true →
      ∃ data, e = ServerEvent.engine (Event.bulkReadDone (Except.ok data)) ∧
        v.core.isSyncing = true ∧ syncFails v.core (Except.ok data) = false) := by
  cases e with
  | engine e =>
    simp only [serverStep] at hs
    cases hst : step v.core e with
    | none => rw [hst] at hs; cases hs
    | some c =>
      rw [hst] at hs
      cases hs
      obtain ⟨h1, h2⟩ := step_ready v.core c e hst
      refine ⟨h1, fun h0 hr => ?_⟩
      obtain ⟨data, he, hsync, hf⟩ := h2 h0 hr
      exact ⟨data, by rw [he], hsync, hf⟩
  | guardedRequest =>
    simp only [serverStep, Option.some.injEq] at hs
    subst hs
    have hsame : (waitForDb v).core.isDbReady = v.core.isDbReady := by
      unfold waitForDb
      split_ifs
      · rfl
      · cases hp : v.core.dbReadyPromise with
        | none => exact syncDatabase_ready v.core
        | some p => rfl
    exact ⟨fun h => hsame.trans h, fun h0 h1 => by rw [hsame, h0] at h1; cases h1⟩
  | gateOpens =>
    simp only [serverStep] at hs
    split_ifs at hs
    cases hs
    exact ⟨fun h => h, fun h0 h1 => by
      have h2 : v.core.isDbReady = true := h1
      rw [h0] at h2; cases h2⟩

/-- C19: along every run of the server (engine turns, guarded requests passing
through `waitForDb`, resumptions), `isDbReady` once true stays true, and if it
is false at the start and true at the end then the run contains the completion
of a cycle that was in flight, in a state where `isDbReady` was still false,
with a response whose conversion raised no error. So a skipped cycle, a failed
cycle, `queueJob`, the worker and `waitForDb` never change it. -/
theorem isDbReady_set_only_by_success (es : List ServerEvent) (v v' : Server)
    (hrun : serverRun v es = some v') :
    (v.core.isDbReady = true → v'.core.isDbReady = true) ∧
    (v.core.isDbReady = false → v'.core.isDbReady = true →
      ∃ pre data post u,
        es = pre ++ ServerEvent.engine (Event.bulkReadDone (Except.ok data)) :: post ∧
        serverRun v pre = some u ∧ u.core.isDbReady = false ∧ u.core.isSyncing = true ∧
        syncFails u.core (Except.ok data) = false) := by
  induction es generalizing v with
  | nil =>
    simp only [serverRun, Option.some.injEq] at hrun
    subst hrun
    exact ⟨fun h => h, fun h0 h1 => by rw [h0] at h1; cases h1⟩
  | cons e es ih =>
    simp only [serverRun] at hrun
    cases hst : serverStep v e with
    | none => rw [hst] at hrun; cases hrun
    | some v1 =>
      rw [hst] at hrun
      obtain ⟨s1, s2⟩ := serverStep_ready v v1 e hst
      obtain ⟨r1, r2⟩ := ih v1 hrun
      refine ⟨fun h => r1 (s1 h), fun h0 h1 => ?_⟩
      cases hmid : v1.core.isDbReady with
      | true =>
        obtain ⟨data, he, hsync, hf⟩ := s2 h0 hmid
        exact ⟨[], data, es, v, by rw [he]; rfl, rfl, h0, hsync, hf⟩
      | false =>
        obtain ⟨pre, data, post, u, hes, hpre, hu, hsync, hf⟩ := r2 hmid h1
        refine ⟨e :: pre, data, post, u, by rw [hes]; rfl, ?_, hu, hsync, hf⟩
        simp only [serverRun, hst]
        exact hpre

/-- An instance of C19: the failed startup cycle and the requests leave
`isDbReady` false, the second cycle sets it. -/
theorem isDbReady_set_only_by_success_witness :
    ∃ v', serverRun serverStartup gateTrace = some v' ∧
      serverStartup.core.isDbReady = false ∧ v'.core.isDbReady = true ∧
      ∃ pre data post u,
        gateTrace = pre ++ ServerEvent.engine (Event.bulkReadDone (Except.ok data)) :: post ∧
        serverRun serverStartup pre = some u ∧ u.core.isDbReady = false ∧
        u.core.isSyncing = true ∧ syncFails u.core (Except.ok data) = false :=
  ⟨_, rfl, rfl, rfl,
    (isDbReady_set_only_by_success gateTrace serverStartup _ rfl).2 rfl rfl⟩

/-- C20 fails on the code: the startup cycle fails, so `dbReadyPromise` settles
with `isDbReady` still false; a guarded request that arrives then awaits the
settled promise and `waitForDb` calls `next()` without testing `isDbReady`
again, before any successful population of the store. -/
theorem next_called_before_population :
    ∃ v1 v2,
      serverRun serverStartup
        [ServerEvent.engine (Event.bulkReadDone (Except.error JsError.remoteError)),
         ServerEvent.guardedRequest] = some v1 ∧
      v1.waiting = 1 ∧ v1.nextCalls = [] ∧ v1.core.isDbReady = false ∧
      serverStep v1 ServerEvent.gateOpens = some v2 ∧
      v2.nextCalls = [false] ∧ v2.core.isDbReady = false ∧ v2.core.bulkReads = 1 :=
  ⟨_, _, rfl, rfl, rfl, rfl, rfl, rfl, rfl, rfl⟩

/-! ## Claims on the replayed payload and the remote store -/

/-- C16 fails on the code: the ADD job of record T5 waits in `WRITE_QUEUE`
holding the very object that `DB.Tasks` holds; a later UPDATE of key T5 patches
that object in place, so when the worker takes the ADD job its payload has
Status Completed although it was passed to `queueJob` with Status Pending. -/
theorem queued_add_payload_mutated :
    ∃ s1 s2 s3 job,
      run startup [addT1, addT5] = some s1 ∧
      s1.WRITE_QUEUE = [job] ∧ job.type = "ADD" ∧ job.data = some 1 ∧
      s1.heap 1 "Status" = some (Val.str "Pending") ∧
      step s1 (updateTask "T5" [("Status", Val.str "Completed")]) = some s2 ∧
      s2.WRITE_QUEUE.head? = some job ∧
      run s2 replayOne = some s3 ∧
      s3.worker = WorkerPc.remoteOp job ∧
      s3.heap 1 "Status" = some (Val.str "Completed") :=
  ⟨_, _, _, _, rfl, rfl, rfl, rfl, by decide, rfl, rfl, rfl, rfl, by decide⟩

/-- C18 fails on the code: remote rows and in-memory records start equal
(none), the in-memory keys stay distinct and non-empty through five writes
that use schema fields only, and no remote call fails; yet after the drain the
second remote row has key T2 and Status Done while the second in-memory record
has key T1 and Status Pending. The ADD jobs replay their records as patched by
the later UPDATEs, so the first UPDATE job for key T1 hits the row of the
record that was renamed to T1 afterwards. -/
theorem drain_after_rename_diverges :
    ∃ y, systemRun quietSystem renameTrace = some y ∧
      quietSystem.core.DB.Tasks = [] ∧ quietSystem.doc = tasksDoc ∧
      (run quietSystem.core (renameTrace.take 1)).map taskKeys = some [Val.str "T1"] ∧
      (run quietSystem.core (renameTrace.take 2)).map taskKeys
        = some [Val.str "T1", Val.str "T5"] ∧
      (run quietSystem.core (renameTrace.take 3)).map taskKeys
        = some [Val.str "T1", Val.str "T5"] ∧
      (run quietSystem.core (renameTrace.take 4)).map taskKeys
        = some [Val.str "T2", Val.str "T5"] ∧
      (run quietSystem.core (renameTrace.take 5)).map taskKeys
        = some [Val.str "T2", Val.str "T1"] ∧
      y.core.isProcessingQueue = false ∧ y.core.WRITE_QUEUE = [] ∧
      y.core.DB.Tasks = [some 0, some 1] ∧
      getProp (y.core.heap 0) "TaskID" = Val.str "T2" ∧
      getProp (y.core.heap 0) "Status" = Val.str "Done" ∧
      getProp (y.core.heap 1) "TaskID" = Val.str "T1" ∧
      getProp (y.core.heap 1) "Status" = Val.str "Pending" ∧
      y.doc = [{ title := "Tasks", headerValues := ["TaskID", "Status"],
                 rows := [["T2", "Done"], ["T2", "Done"]] }] :=
  ⟨_, rfl, rfl, rfl, by decide, by decide, by decide, by decide, by decide,
    by decide, by decide, by decide, by decide, by decide, by decide, by decide, by decide⟩

/-! ## Lists and rows -/

theorem firstIndex_append_last {α : Type} (p : α → Bool) (old : List α) (x : α)
    (hold : ∀ a ∈ old, p a = false) (hx : p x = true) :
    firstIndex p (old ++ [x]) = some old.length := by
  induction old with
  | nil => simp [firstIndex, hx]
  | cons a old ih =>
    have ha : p a = false := hold a (List.mem_cons_self _ _)
    simp [firstIndex, ha, ih (fun b hb => hold b (List.mem_cons_of_mem _ hb))]

theorem firstIndex_none {α : Type} (p : α → Bool) (l : List α)
    (h : ∀ a ∈ l, p a = false) : firstIndex p l = none := by
  induction l with
  | nil => rfl
  | cons a l ih =>
    have ha : p a = false := h a (List.mem_cons_self _ _)
    simp [firstIndex, ha, ih (fun b hb => h b (List.mem_cons_of_mem _ hb))]

theorem modify_append_last {α : Type} (f : α → α) (old : List α) (x : α) :
    (old ++ [x]).modify f old.length = old ++ [f x] := by
  induction old with
  | nil => rfl
  | cons a old ih => simp [List.modify_succ_cons, ih]

theorem eraseIdx_append_last {α : Type} (old : List α) (x : α) :
    (old ++ [x]).eraseIdx old.length = old := by
  induction old with
  | nil => rfl
  | cons a old ih => simp [ih]

theorem list_set_set_same {α : Type} (l : List α) (i : Nat) (a b : α) :
    (l.set i a).set i b = l.set i b := by
  simp

theorem list_set_get_self {α : Type} (l : List α) (i : Nat) (a : α) (h : l.get? i = some a) :
    l.set i a = l := by
  induction l generalizing i with
  | nil => rfl
  | cons x l ih =>
    cases i with
    | zero => simp at h; simp [h]
    | succ n => simp at h; simp [ih n (by simpa using h)]

theorem list_get_set_same {α : Type} (l : List α) (i : Nat) (a b : α) (h : l.get? i = some a) :
    (l.set i b).get? i = some b := by
  induction l generalizing i with
  | nil => simp at h
  | cons x l ih =>
    cases i with
    | zero => simp
    | succ n => simp at h; simpa using ih n (by simpa using h)

theorem firstIndex_set {α : Type} (p : α → Bool) (l : List α) (i : Nat) (a b : α)
    (h : l.get? i = some a) (hp : p b = p a) :
    firstIndex p (l.set i b) = firstIndex p l := by
  induction l generalizing i with
  | nil => rfl
  | cons x l ih =>
    cases i with
    | zero =>
      simp at h
      subst h
      simp [firstIndex, hp]
    | succ n =>
      simp at h
      simp [firstIndex, ih n (by simpa using h)]

theorem rowGet_map (headers : List String) (f : String → String) (k : String)
    (hk : k ∈ headers) :
    rowGet headers (headers.map f) (Val.str k) = Val.str (f k) := by
  have hlt : headers.indexOf k < headers.length := List.indexOf_lt_length.mpr hk
  simp only [rowGet, hk, if_true]
  have hget : (headers.map f).get? (headers.indexOf k) = some (f k) := by
    rw [List.get?_eq_getElem?, List.getElem?_map, List.getElem?_eq_getElem hlt]
    simp
  rw [hget]

theorem setCell_length (row : Row) (i : Nat) (c : String) :
    row.length ≤ (setCell row i c).length := by
  unfold setCell
  split_ifs
  · simp
  · simp

theorem setCell_get_other (row : Row) (i j : Nat) (c : String) (hne : j ≠ i)
    (hj : j < row.length) : (setCell row i c).get? j = row.get? j := by
  unfold setCell
  split_ifs with h
  · rw [List.get?_eq_getElem?, List.get?_eq_getElem?, List.getElem?_set_ne (Ne.symm hne)]
  · rw [List.get?_eq_getElem?, List.get?_eq_getElem?, List.append_assoc,
      List.getElem?_append_left hj]

theorem foldl_setCell_get (patch : Obj) (headers : List String) (j : Nat)
    (ps : List (Nat × String)) :
    ∀ (row : Row), j < row.length →
      (∀ p ∈ ps, p.1 = j → headers.indexOf p.2 = p.1 → patch p.2 = none) →
      (ps.foldl
        (fun r (p : Nat × String) =>
          if headers.indexOf p.2 = p.1 then
            match patch p.2 with
            | some v => setCell r p.1 (cellOfVal v)
            | none => r
          else r) row).get? j = row.get? j := by
  induction ps with
  | nil => intro row _ _; rfl
  | cons p ps ih =>
    intro row hj hp
    simp only [List.foldl_cons]
    have hrest : ∀ q ∈ ps, q.1 = j → headers.indexOf q.2 = q.1 → patch q.2 = none :=
      fun q hq => hp q (List.mem_cons_of_mem _ hq)
    by_cases hidx : headers.indexOf p.2 = p.1
    · rw [if_pos hidx]
      cases hv : patch p.2 with
      | none => exact ih row hj hrest
      | some v =>
        have hne : j ≠ p.1 := by
          intro hjp
          have := hp p (List.mem_cons_self _ _) hjp.symm hidx
          rw [hv] at this
          cases this
        simp only
        rw [ih (setCell row p.1 (cellOfVal v))
          (Nat.lt_of_lt_of_le hj (setCell_length row p.1 (cellOfVal v))) hrest]
        exact setCell_get_other row p.1 j (cellOfVal v) hne hj
    · rw [if_neg hidx]
      exact ih row hj hrest

theorem rowGet_assignRow (headers : List String) (patch : Obj) (row : Row) (k : String)
    (hk : k ∈ headers) (hlen : headers.indexOf k < row.length) (hpatch : patch k = none) :
    rowGet headers (assignRow headers patch row) (Val.str k) = rowGet headers row (Val.str k) := by
  have hget : (assignRow headers patch row).get? (headers.indexOf k)
      = row.get? (headers.indexOf k) := by
    unfold assignRow
    apply foldl_setCell_get patch headers (headers.indexOf k) headers.enum row hlen
    intro p hp hp1 hidx
    have hmem : p.2 ∈ headers := by
      have h2 := List.mem_enum_iff_getElem?.mp hp
      exact List.getElem?_mem h2
    have e1 : headers.get? (headers.indexOf p.2) = some p.2 := List.indexOf_get? hmem
    have e2 : headers.get? (headers.indexOf k) = some k := List.indexOf_get? hk
    rw [hidx, hp1, e2] at e1
    cases e1
    exact hpatch
  simp only [rowGet, hk, if_true, hget]

/-- The replay of a job whose sheet is found at index `i` of the document. -/
theorem replayJob_located (doc : Doc) (h : Heap) (job : Job) (i : Nat) (sh : Sheet)
    (hfind : firstIndex (fun s => decide (toLowerCase s.title = toLowerCase job.sheet)) doc
      = some i)
    (hget : doc.get? i = some sh) :
    replayJob doc h job =
      (if job.type = "ADD" then
        match job.data with
        | none => Except.error JsError.typeError
        | some d => Except.ok (doc.set i (sh.addRow (h d)))
      else if job.type = "UPDATE" then
        match firstIndex (fun r => decide (rowGet sh.headerValues r job.keyField = job.keyValue))
            sh.rows with
        | none => Except.ok doc
        | some k =>
          Except.ok (doc.set i
            { sh with rows := sh.rows.modify (assignRow sh.headerValues (patchOf h job.data)) k })
      else if job.type = "DELETE" then
        match firstIndex (fun r =>
            decide (rowGet sh.headerValues r job.keyField ≠ Val.undefined ∧
              rowGet sh.headerValues r job.keyField ≠ Val.str "" ∧
              rowGet sh.headerValues r job.keyField = job.keyValue)) sh.rows with
        | none => Except.ok doc
        | some k => Except.ok (doc.set i { sh with rows := sh.rows.eraseIdx k })
      else Except.ok doc) := by
  have hgs : getSheet doc job.sheet job.headers SheetEnv.allOk = Except.ok (doc, i) := by
    simp [getSheet, SheetEnv.allOk, hfind]
  simp only [replayJob, hgs, hget]

/-- Replacing the sheet at index `i` by one with the same title keeps it there. -/
theorem located_set (doc : Doc) (title : String) (i : Nat) (sh sh1 : Sheet)
    (hfind : firstIndex (fun s => decide (toLowerCase s.title = toLowerCase title)) doc = some i)
    (hget : doc.get? i = some sh) (htitle : sh1.title = sh.title) :
    firstIndex (fun s => decide (toLowerCase s.title = toLowerCase title)) (doc.set i sh1)
      = some i ∧
    (doc.set i sh1).get? i = some sh1 := by
  refine ⟨?_, list_get_set_same doc i sh sh1 hget⟩
  rw [firstIndex_set _ doc i sh sh1 hget (by simp only [htitle])]
  exact hfind

theorem findItem_exists (h : Heap) (key : String) (kv : Val) (l : List Ref)
    (hex : ∃ x ∈ l, getProp (h x) key = kv) :
    ∃ item, findItem h key kv (l.map some) = Except.ok (some item) ∧ item ∈ l ∧
      getProp (h item) key = kv := by
  induction l with
  | nil => obtain ⟨x, hx, _⟩ := hex; cases hx
  | cons a l ih =>
    by_cases ha : getProp (h a) key = kv
    · exact ⟨a, by simp [findItem, ha], List.mem_cons_self _ _, ha⟩
    · have hex2 : ∃ x ∈ l, getProp (h x) key = kv := by
        obtain ⟨x, hx, hk⟩ := hex
        rcases List.mem_cons.mp hx with hxa | hxl
        · subst hxa; exact absurd hk ha
        · exact ⟨x, hxl, hk⟩
      obtain ⟨item, hf, hm, hk⟩ := ih hex2
      exact ⟨item, by simp [findItem, ha, hf], List.mem_cons_of_mem _ hm, hk⟩

theorem payloadState_flags (s : State) (payload : Option Obj) :
    (payloadState s payload).isProcessingQueue = s.isProcessingQueue ∧
    (payloadState s payload).worker = s.worker ∧
    (payloadState s payload).DB = s.DB := by
  cases payload <;> exact ⟨rfl, rfl, rfl⟩

theorem callQueueJob_idle (s t : State) (type sheet : String) (payload : Option Obj)
    (keyField keyValue : Val) (hidle : s.isProcessingQueue = false) (hq : s.WRITE_QUEUE = [])
    (hram : updateRam (payloadState s payload) type sheet (payload.map fun _ => s.nextRef)
      keyField keyValue = Except.ok t) :
    callQueueJob s type sheet payload keyField keyValue
      = { t with
          WRITE_QUEUE := [],
          worker := WorkerPc.remoteOp
            (Job.mk type sheet (payload.map fun _ => s.nextRef) keyField keyValue
              (headersFor sheet)),
          isProcessingQueue := true } := by
  rw [callQueueJob_eq, queueJob_of_updateRam _ _ _ _ _ _ _ hram]
  obtain ⟨f1, _, f3, _⟩ := updateRam_frame _ _ _ _ _ _ _ hram
  rw [payloadState_queue, hq] at f1
  rw [(payloadState_flags s payload).1, hidle] at f3
  obtain ⟨heap, nextRef, DB, ready, promise, queue, busy, syncing, worker, reads⟩ := t
  simp only at f1 f3
  subst f1 f3
  rfl

theorem callQueueJob_busy (s t : State) (type sheet : String) (payload : Option Obj)
    (keyField keyValue : Val) (hbusy : s.isProcessingQueue = true)
    (hram : updateRam (payloadState s payload) type sheet (payload.map fun _ => s.nextRef)
      keyField keyValue = Except.ok t) :
    callQueueJob s type sheet payload keyField keyValue
      = { t with
          WRITE_QUEUE := s.WRITE_QUEUE ++
            [Job.mk type sheet (payload.map fun _ => s.nextRef) keyField keyValue
              (headersFor sheet)] } := by
  rw [callQueueJob_eq, queueJob_of_updateRam _ _ _ _ _ _ _ hram]
  obtain ⟨f1, _, f3, _⟩ := updateRam_frame _ _ _ _ _ _ _ hram
  rw [payloadState_queue] at f1
  rw [(payloadState_flags s payload).1, hbusy] at f3
  simp only
  rw [processWriteQueue_busy _ (by exact f3), f1]

/-- The worker completes the job it holds with success and waits out its delay. -/
theorem systemRun_replayOne (y : System) (job : Job) (d : Doc)
    (hw : y.core.worker = WorkerPc.remoteOp job)
    (hr : replayJob y.doc y.core.heap job = Except.ok d) :
    ∃ c, systemRun y replayOne = some { core := c, doc := d } ∧
      c.heap = y.core.heap ∧ c.DB = y.core.DB ∧
      (∀ next rest, y.core.WRITE_QUEUE = next :: rest →
        c.worker = WorkerPc.remoteOp next ∧ c.WRITE_QUEUE = rest ∧
        c.isProcessingQueue = y.core.isProcessingQueue) ∧
      (y.core.WRITE_QUEUE = [] → c.isProcessingQueue = false ∧ c.WRITE_QUEUE = []) := by
  refine ⟨workerLoop { y.core with worker := WorkerPc.delay }, ?_, ?_, ?_, ?_, ?_⟩
  · simp [replayOne, systemRun, systemStep, hw, hr, workerRemoteDone, step, workerDelayDone]
  · unfold workerLoop; split <;> rfl
  · unfold workerLoop; split <;> rfl
  · intro next rest hq
    unfold workerLoop
    simp [hq]
  · intro hq
    unfold workerLoop
    simp [hq]

theorem objLit_status (kf : String) (hkf : kf ≠ "Status") :
    objLit [("Status", Val.str "Completed")] kf = none := by
  simp [objLit, setProp, emptyObj, hkf]

/-- The engine after the three writes of Scenario C issued in an idle state. -/
theorem scenarioC_memory (s : State) (sheet : String) (record : List (String × Val))
    (kf kv : String) (refs : List Ref)
    (hidle : s.isProcessingQueue = false) (hq : s.WRITE_QUEUE = [])
    (hDB : s.DB.get sheet = some (refs.map some))
    (hkey : getProp (objLit record) kf = Val.str kv) (hkf : kf ≠ "Status") :
    ∃ c, run s (scenarioC sheet record kf kv) = some c ∧
      c.worker = WorkerPc.remoteOp
        (Job.mk "ADD" sheet (some s.nextRef) Val.undefined Val.undefined (headersFor sheet)) ∧
      c.WRITE_QUEUE =
        [Job.mk "UPDATE" sheet (some (s.nextRef + 1)) (Val.str kf) (Val.str kv)
           (headersFor sheet),
         Job.mk "DELETE" sheet none (Val.str kf) (Val.str kv) (headersFor sheet)] ∧
      c.isProcessingQueue = true ∧
      getProp (c.heap s.nextRef) kf = Val.str kv ∧
      c.heap (s.nextRef + 1) = objLit [("Status", Val.str "Completed")] ∧
      ∃ l, c.DB.get sheet = some l ∧ ∀ x, some x ∈ l → getProp (c.heap x) kf ≠ Val.str kv := by
  -- first write
  have hDB0 : (payloadState s (some (objLit record))).DB.get sheet = some (refs.map some) := hDB
  have hram1 := updateRam_add (payloadState s (some (objLit record))) sheet (some s.nextRef)
    Val.undefined Val.undefined _ hDB0
  have h1 := callQueueJob_idle s _ "ADD" sheet (some (objLit record)) Val.undefined
    Val.undefined hidle hq hram1
  generalize hc1 : callQueueJob s "ADD" sheet (some (objLit record)) Val.undefined
    Val.undefined = c1 at h1
  have c1heap : c1.heap = Heap.write s.heap s.nextRef (objLit record) := by rw [h1]; rfl
  have c1next : c1.nextRef = s.nextRef + 1 := by rw [h1]; rfl
  have c1busy : c1.isProcessingQueue = true := by rw [h1]
  have c1queue : c1.WRITE_QUEUE = [] := by rw [h1]
  have c1worker : c1.worker = WorkerPc.remoteOp
      (Job.mk "ADD" sheet (some s.nextRef) Val.undefined Val.undefined (headersFor sheet)) := by
    rw [h1]; rfl
  have c1DB : c1.DB.get sheet = some ((refs ++ [s.nextRef]).map some) := by
    rw [h1]
    show (s.DB.set sheet (refs.map some ++ [some s.nextRef])).get sheet = _
    rw [DBStore.get_set_same _ _ _ _ hDB]
    simp
  -- second write
  have hp : objLit [("Status", Val.str "Completed")] kf = none := objLit_status kf hkf
  have hDB1 : (payloadState c1 (some (objLit [("Status", Val.str "Completed")]))).DB.get sheet
      = some ((refs ++ [s.nextRef]).map some) := c1DB
  have hrec : getProp ((payloadState c1 (some (objLit [("Status", Val.str "Completed")]))).heap
      s.nextRef) kf = Val.str kv := by
    show getProp (Heap.write c1.heap c1.nextRef _ s.nextRef) kf = _
    rw [c1next, c1heap]
    simp [Heap.write, hkey]
  obtain ⟨item, hfind, _, hitem⟩ := findItem_exists
    (payloadState c1 (some (objLit [("Status", Val.str "Completed")]))).heap kf (Val.str kv)
    (refs ++ [s.nextRef]) ⟨s.nextRef, by simp, hrec⟩
  have hram2 := updateRam_update_found
    (payloadState c1 (some (objLit [("Status", Val.str "Completed")]))) sheet
    (some c1.nextRef) (Val.str kf) (Val.str kv) _ item hDB1 hfind
  have h2 := callQueueJob_busy c1 _ "UPDATE" sheet
    (some (objLit [("Status", Val.str "Completed")])) (Val.str kf) (Val.str kv) c1busy hram2
  generalize hc2 : callQueueJob c1 "UPDATE" sheet
    (some (objLit [("Status", Val.str "Completed")])) (Val.str kf) (Val.str kv) = c2 at h2
  have hpatchAt : Heap.write c1.heap c1.nextRef (objLit [("Status", Val.str "Completed")])
      (s.nextRef + 1) = objLit [("Status", Val.str "Completed")] := by
    rw [c1next]; simp [Heap.write]
  have hitemne : item ≠ s.nextRef + 1 := by
    intro hi
    have hk : getProp (Heap.write c1.heap c1.nextRef (objLit [("Status", Val.str "Completed")])
        item) kf = Val.str kv := hitem
    rw [hi, hpatchAt] at hk
    simp [getProp, hp] at hk
  have c2heap : c2.heap = Heap.write
      (Heap.write c1.heap c1.nextRef (objLit [("Status", Val.str "Completed")])) item
      (objectAssign
        (Heap.write c1.heap c1.nextRef (objLit [("Status", Val.str "Completed")]) item)
        (Heap.write c1.heap c1.nextRef (objLit [("Status", Val.str "Completed")])
          c1.nextRef)) := by
    rw [h2]; rfl
  have c2busy : c2.isProcessingQueue = true := by rw [h2]; exact c1busy
  have c2queue : c2.WRITE_QUEUE =
      [Job.mk "UPDATE" sheet (some (s.nextRef + 1)) (Val.str kf) (Val.str kv)
        (headersFor sheet)] := by
    rw [h2]
    show c1.WRITE_QUEUE ++ _ = _
    rw [c1queue, c1next]
    rfl
  have c2worker : c2.worker = c1.worker := by rw [h2]; rfl
  have c2DB : c2.DB.get sheet = some ((refs ++ [s.nextRef]).map some) := by
    rw [h2]; exact c1DB
  have c2patch : c2.heap (s.nextRef + 1) = objLit [("Status", Val.str "Completed")] := by
    rw [c2heap]
    simp only [Heap.write, if_neg hitemne.symm]
    rw [c1next]
    simp
  have c2rec : getProp (c2.heap s.nextRef) kf = Val.str kv := by
    rw [c2heap]
    by_cases hir : s.nextRef = item
    · subst hir
      have hsrc : Heap.write c1.heap c1.nextRef (objLit [("Status", Val.str "Completed")])
          c1.nextRef = objLit [("Status", Val.str "Completed")] := by simp [Heap.write]
      rw [hsrc]
      have hk : getProp (Heap.write c1.heap c1.nextRef
          (objLit [("Status", Val.str "Completed")]) s.nextRef) kf = Val.str kv := hitem
      simpa [Heap.write, objectAssign, getProp, hp] using hk
    · simp only [Heap.write, if_neg hir]
      exact hrec
  -- third write
  have hfilter := filterItems_objects c2.heap kf (Val.str kv) (refs ++ [s.nextRef])
  have hram3 := updateRam_delete (payloadState c2 none) sheet none (Val.str kf) (Val.str kv)
    _ _ c2DB hfilter
  have h3 := callQueueJob_busy c2 _ "DELETE" sheet none (Val.str kf) (Val.str kv) c2busy hram3
  generalize hc3 : callQueueJob c2 "DELETE" sheet none (Val.str kf) (Val.str kv) = c3 at h3
  have c3heap : c3.heap = c2.heap := by rw [h3]; rfl
  refine ⟨c3, ?_, ?_, ?_, ?_, ?_, ?_, ?_⟩
  · simp only [scenarioC, run, step, Option.map_some']
    rw [hc1]
    simp only [hc2]
    exact congrArg some hc3
  · rw [h3]; show c2.worker = _; rw [c2worker, c1worker]
  · rw [h3]; show c2.WRITE_QUEUE ++ _ = _; rw [c2queue]; rfl
  · rw [h3]; exact c2busy
  · rw [c3heap]; exact c2rec
  · rw [c3heap]; exact c2patch
  · refine ⟨((refs ++ [s.nextRef]).filter fun x =>
        decide (getProp (c2.heap x) kf ≠ Val.str kv)).map some, ?_, ?_⟩
    · rw [h3]
      show (c2.DB.set sheet _).get sheet = _
      exact DBStore.get_set_same _ _ _ _ c2DB
    · intro x hx
      rw [c3heap]
      simp only [List.mem_map, Option.some.injEq, exists_eq_right, List.mem_filter] at hx
      simpa using hx.2

/-- C17 (Scenario C): in an idle engine whose array of `sheet` holds records,
for a record whose key field `kf` (a header of the remote sheet, other than
Status) has the non-empty value `kv` carried by no remote row, the writes ADD,
UPDATE of Status to Completed and DELETE by that key, followed by a drain
without remote failure, perform three remote operations in this order: a row
with key `kv` is appended after the existing rows, that row is patched, that
row is deleted. At the end the remote document is as before (no row has the
key), the queue is empty, the worker idle, and no in-memory record of the
sheet has the key. -/
theorem scenarioC_replay (y : System) (sheet : String) (record : List (String × Val))
    (kf kv : String) (refs : List Ref) (i : Nat) (sh : Sheet)
    (hidle : y.core.isProcessingQueue = false) (hq : y.core.WRITE_QUEUE = [])
    (hDB : y.core.DB.get sheet = some (refs.map some))
    (hkey : getProp (objLit record) kf = Val.str kv) (hkv : kv ≠ "") (hkf : kf ≠ "Status")
    (hfind : firstIndex (fun s => decide (toLowerCase s.title = toLowerCase sheet)) y.doc
      = some i)
    (hget : y.doc.get? i = some sh) (hhead : kf ∈ sh.headerValues)
    (hnew : ∀ row ∈ sh.rows, rowGet sh.headerValues row (Val.str kf) ≠ Val.str kv) :
    ∃ y0 y1 y2 y3 row1,
      systemRun y (scenarioC sheet record kf kv) = some y0 ∧ y0.doc = y.doc ∧
      systemRun y0 replayOne = some y1 ∧
      y1.doc = y.doc.set i { sh with rows := sh.rows ++ [row1] } ∧
      rowGet sh.headerValues row1 (Val.str kf) = Val.str kv ∧
      systemRun y1 replayOne = some y2 ∧
      y2.doc = y.doc.set i
        { sh with rows := sh.rows ++
            [assignRow sh.headerValues (objLit [("Status", Val.str "Completed")]) row1] } ∧
      systemRun y2 replayOne = some y3 ∧
      y3.doc = y.doc ∧
      y3.core.isProcessingQueue = false ∧ y3.core.WRITE_QUEUE = [] ∧
      ∃ l, y3.core.DB.get sheet = some l ∧
        ∀ x, some x ∈ l → getProp (y3.core.heap x) kf ≠ Val.str kv := by
  obtain ⟨c, hrun, hw, hqueue, hbusy, hrec, hpatch, l, hl, hlk⟩ :=
    scenarioC_memory y.core sheet record kf kv refs hidle hq hDB hkey hkf
  have hp : objLit [("Status", Val.str "Completed")] kf = none := objLit_status kf hkf
  have hidx : sh.headerValues.indexOf kf < sh.headerValues.length :=
    List.indexOf_lt_length.mpr hhead
  -- the three writes
  have hrun0 : systemRun y (scenarioC sheet record kf kv) = some { core := c, doc := y.doc } := by
    simp only [scenarioC, run, step, Option.some.injEq] at hrun
    simp only [scenarioC, systemRun, systemStep, step, hrun]
  -- first replay: the row is appended
  have hr1 : replayJob y.doc c.heap
      (Job.mk "ADD" sheet (some y.core.nextRef) Val.undefined Val.undefined (headersFor sheet))
      = Except.ok (y.doc.set i (sh.addRow (c.heap y.core.nextRef))) := by
    rw [replayJob_located y.doc c.heap _ i sh hfind hget]
    simp
  obtain ⟨c1, hrun1, c1heap, c1DB, c1next, _⟩ :=
    systemRun_replayOne { core := c, doc := y.doc } _ _ hw hr1
  obtain ⟨c1worker, c1queue, c1busy⟩ := c1next _ _ hqueue
  have hrow1 : rowGet sh.headerValues
      (sh.headerValues.map fun h => cellOfVal (getProp (c.heap y.core.nextRef) h)) (Val.str kf)
      = Val.str kv := by
    rw [rowGet_map sh.headerValues _ kf hhead, hrec]
    rfl
  have hold : ∀ row ∈ sh.rows,
      decide (rowGet sh.headerValues row (Val.str kf) = Val.str kv) = false :=
    fun row hr => decide_eq_false (hnew row hr)
  -- second replay: that row is patched
  obtain ⟨hfind1, hget1⟩ := located_set y.doc sheet i sh (sh.addRow (c.heap y.core.nextRef))
    hfind hget rfl
  have hr2 : replayJob (y.doc.set i (sh.addRow (c.heap y.core.nextRef))) c1.heap
      (Job.mk "UPDATE" sheet (some (y.core.nextRef + 1)) (Val.str kf) (Val.str kv)
        (headersFor sheet))
      = Except.ok (y.doc.set i
          { sh with rows := sh.rows ++
              [assignRow sh.headerValues (objLit [("Status", Val.str "Completed")])
                (sh.headerValues.map fun h => cellOfVal (getProp (c.heap y.core.nextRef) h))] })
      := by
    rw [replayJob_located _ c1.heap _ i _ hfind1 hget1]
    have hfi : firstIndex
        (fun r => decide (rowGet sh.headerValues r (Val.str kf) = Val.str kv))
        (sh.rows ++ [sh.headerValues.map fun h => cellOfVal (getProp (c.heap y.core.nextRef) h)])
        = some sh.rows.length :=
      firstIndex_append_last _ _ _ hold (decide_eq_true hrow1)
    have h1 : ¬ ("UPDATE" = "ADD") := by decide
    simp only [Sheet.addRow, h1, if_false, if_true, hfi, patchOf, c1heap, hpatch,
      modify_append_last, list_set_set_same]
  obtain ⟨c2, hrun2, c2heap, c2DB, c2next, _⟩ :=
    systemRun_replayOne { core := c1, doc := y.doc.set i (sh.addRow (c.heap y.core.nextRef)) }
      _ _ c1worker hr2
  obtain ⟨c2worker, c2queue, c2busy⟩ := c2next _ _ c1queue
  -- third replay: that row is deleted
  have hlen : sh.headerValues.indexOf kf
      < (sh.headerValues.map fun h => cellOfVal (getProp (c.heap y.core.nextRef) h)).length := by
    rw [List.length_map]; exact hidx
  have hrow2 : rowGet sh.headerValues
      (assignRow sh.headerValues (objLit [("Status", Val.str "Completed")])
        (sh.headerValues.map fun h => cellOfVal (getProp (c.heap y.core.nextRef) h)))
      (Val.str kf) = Val.str kv := by
    rw [rowGet_assignRow sh.headerValues _ _ kf hhead hlen hp, hrow1]
  obtain ⟨hfind2, hget2⟩ := located_set y.doc sheet i sh
    { sh with rows := sh.rows ++
        [assignRow sh.headerValues (objLit [("Status", Val.str "Completed")])
          (sh.headerValues.map fun h => cellOfVal (getProp (c.heap y.core.nextRef) h))] }
    hfind hget rfl
  have hr3 : replayJob
      (y.doc.set i
        { sh with rows := sh.rows ++
            [assignRow sh.headerValues (objLit [("Status", Val.str "Completed")])
              (sh.headerValues.map fun h => cellOfVal (getProp (c.heap y.core.nextRef) h))] })
      c2.heap (Job.mk "DELETE" sheet none (Val.str kf) (Val.str kv) (headersFor sheet))
      = Except.ok y.doc := by
    rw [replayJob_located _ c2.heap _ i _ hfind2 hget2]
    have hfi : firstIndex
        (fun r => decide (rowGet sh.headerValues r (Val.str kf) ≠ Val.undefined ∧
          rowGet sh.headerValues r (Val.str kf) ≠ Val.str "" ∧
          rowGet sh.headerValues r (Val.str kf) = Val.str kv))
        (sh.rows ++
          [assignRow sh.headerValues (objLit [("Status", Val.str "Completed")])
            (sh.headerValues.map fun h => cellOfVal (getProp (c.heap y.core.nextRef) h))])
        = some sh.rows.length := by
      apply firstIndex_append_last
      · intro row hr
        exact decide_eq_false fun h => hnew row hr h.2.2
      · apply decide_eq_true
        rw [hrow2]
        refine ⟨by simp, ?_, rfl⟩
        intro h
        exact hkv (Val.str.inj h)
    have h1 : ¬ ("DELETE" = "ADD") := by decide
    have h2 : ¬ ("DELETE" = "UPDATE") := by decide
    simp only [h1, h2, if_false, if_true, hfi, eraseIdx_append_last, list_set_set_same]
    rw [list_set_get_self y.doc i _ hget]
  obtain ⟨c3, hrun3, c3heap, c3DB, _, c3done⟩ :=
    systemRun_replayOne
      { core := c2,
        doc := y.doc.set i
          { sh with rows := sh.rows ++
              [assignRow sh.headerValues (objLit [("Status", Val.str "Completed")])
                (sh.headerValues.map fun h => cellOfVal (getProp (c.heap y.core.nextRef) h))] } }
      _ _ c2worker hr3
  obtain ⟨c3idle, c3queue⟩ := c3done c2queue
  refine ⟨_, _, _, _, _, hrun0, rfl, hrun1, rfl, hrow1, hrun2, rfl, hrun3, rfl, c3idle,
    c3queue, l, ?_, ?_⟩
  · show c3.DB.get sheet = some l
    rw [c3DB, c2DB, c1DB]
    exact hl
  · intro x hx
    show getProp (c3.heap x) kf ≠ Val.str kv
    rw [c3heap, c2heap, c1heap]
    exact hlk x hx

/-- An instance of C17: Scenario C for the task T1 on a remote Tasks sheet
with the columns TaskID and Status and no row. -/
theorem scenarioC_replay_witness :
    (quietSystem.core.isProcessingQueue = false ∧ quietSystem.core.WRITE_QUEUE = [] ∧
      quietSystem.core.DB.get "Tasks" = some (([] : List Ref).map some) ∧
      getProp (objLit [("TaskID", Val.str "T1"), ("Status", Val.str "Pending")]) "TaskID"
        = Val.str "T1" ∧
      "T1" ≠ "" ∧ "TaskID" ≠ "Status" ∧
      firstIndex (fun s => decide (toLowerCase s.title = toLowerCase "Tasks")) quietSystem.doc
        = some 0 ∧
      quietSystem.doc.get? 0
        = some { title := "Tasks", headerValues := ["TaskID", "Status"], rows := [] } ∧
      "TaskID" ∈ ["TaskID", "Status"] ∧
      (∀ row ∈ ([] : List Row),
        rowGet ["TaskID", "Status"] row (Val.str "TaskID") ≠ Val.str "T1")) ∧
    ∃ y0 y1 y2 y3,
      systemRun quietSystem
        (scenarioC "Tasks" [("TaskID", Val.str "T1"), ("Status", Val.str "Pending")]
          "TaskID" "T1") = some y0 ∧
      systemRun y0 replayOne = some y1 ∧
      systemRun y1 replayOne = some y2 ∧
      systemRun y2 replayOne = some y3 ∧
      y3.doc = quietSystem.doc ∧ y3.core.isProcessingQueue = false ∧
      y3.core.WRITE_QUEUE = [] := by
  have h1 : quietSystem.core.DB.get "Tasks" = some (([] : List Ref).map some) := rfl
  have h2 : getProp (objLit [("TaskID", Val.str "T1"), ("Status", Val.str "Pending")])
      "TaskID" = Val.str "T1" := by decide
  have h3 : "T1" ≠ "" := by decide
  have h4 : "TaskID" ≠ "Status" := by decide
  have h5 : firstIndex (fun s => decide (toLowerCase s.title = toLowerCase "Tasks"))
      quietSystem.doc = some 0 := by decide
  have h6 : quietSystem.doc.get? 0
      = some { title := "Tasks", headerValues := ["TaskID", "Status"], rows := [] } := rfl
  have h7 : "TaskID" ∈ ["TaskID", "Status"] := by decide
  have h8 : ∀ row ∈ ([] : List Row),
      rowGet ["TaskID", "Status"] row (Val.str "TaskID") ≠ Val.str "T1" :=
    fun row hr => by cases hr
  refine ⟨⟨rfl, rfl, h1, h2, h3, h4, h5, h6, h7, h8⟩, ?_⟩
  obtain ⟨y0, y1, y2, y3, _, r0, _, r1, _, _, r2, _, r3, hdoc, hidle, hqueue, _⟩ :=
    scenarioC_replay quietSystem "Tasks"
      [("TaskID", Val.str "T1"), ("Status", Val.str "Pending")] "TaskID" "T1" [] 0
      { title := "Tasks", headerValues := ["TaskID", "Status"], rows := [] }
      rfl rfl h1 h2 h3 h4 h5 h6 h7 h8
  exact ⟨y0, y1, y2, y3, r0, r1, r2, r3, hdoc, hidle, hqueue⟩

/-! ## Claims on `waitForDb`, the flags and the conversion -/

/-- C21: `waitForDb` called when `isDbReady` is true calls `next()` at once and
changes nothing else (no cycle started, nothing awaited); called when it is
false with `dbReadyPromise` set it leaves the engine as it is (no cycle
started, the stored promise kept) and suspends on that promise; called when it
is false with `dbReadyPromise` unset it calls `syncDatabase()` once, stores the
promise of that call and suspends on it, so later callers find the promise
set. A bulk read is issued by `waitForDb` only in this last case. -/
theorem waitForDb_cases (v : Server) :
    (v.core.isDbReady = true →
      waitForDb v = { v with nextCalls := v.nextCalls ++ [true] }) ∧
    (v.core.isDbReady = false → ∀ p, v.core.dbReadyPromise = some p →
      waitForDb v = { v with waiting := v.waiting + 1 }) ∧
    (v.core.isDbReady = false → v.core.dbReadyPromise = none →
      waitForDb v =
        { v with
          core := { (syncDatabase v.core).1 with dbReadyPromise := some (syncDatabase v.core).2 },
          waiting := v.waiting + 1 } ∧
      (waitForDb v).core.dbReadyPromise ≠ none) ∧
    ((waitForDb v).core.bulkReads ≠ v.core.bulkReads →
      v.core.isDbReady = false ∧ v.core.dbReadyPromise = none) := by
  refine ⟨fun h => ?_, fun h p hp => ?_, fun h hp => ?_, fun hne => ?_⟩
  · simp only [waitForDb, h, if_true]
  · simp [waitForDb, h, hp]
  · have e : waitForDb v =
        { v with
          core := { (syncDatabase v.core).1 with
            dbReadyPromise := some (syncDatabase v.core).2 },
          waiting := v.waiting + 1 } := by
      simp [waitForDb, h, hp]
    refine ⟨e, ?_⟩
    rw [e]
    exact fun hc => by cases hc
  · by_cases h : v.core.isDbReady = true
    · exfalso
      apply hne
      simp only [waitForDb, h, if_true]
    · have h0 : v.core.isDbReady = false := by simpa using h
      refine ⟨h0, ?_⟩
      cases hp : v.core.dbReadyPromise with
      | none => rfl
      | some p =>
        exfalso
        apply hne
        simp [waitForDb, h0, hp]

/-- C22: the continuation of a cycle that passed the busy guard ends with
`isSyncing` false, whatever the outcome of the bulk read and of the
conversion; the guard had set it to true. -/
theorem syncResume_clears_isSyncing (s : State) (outcome : Except JsError Response) :
    (syncResume s outcome).isSyncing = false ∧
    (∀ s', step s (Event.bulkReadDone outcome) = some s' → s'.isSyncing = false) ∧
    (s.isSyncing = false → s.isProcessingQueue = false →
      (syncDatabase s).1.isSyncing = true) := by
  refine ⟨rfl, fun s' hs => ?_, fun h1 h2 => ?_⟩
  · simp only [step] at hs
    split_ifs at hs
    cases hs
    rfl
  · unfold syncDatabase
    rw [if_neg (by simp [h1, h2])]

/-- C23: for every header list `arrayToObjects` returns the empty list when
the grid is absent and when it has fewer than two rows. -/
theorem arrayToObjects_no_data (headers : List String) :
    arrayToObjects none headers = [] ∧
    ∀ values : List Row, values.length < 2 → arrayToObjects (some values) headers = [] := by
  refine ⟨rfl, fun values h => ?_⟩
  simp only [arrayToObjects, h, if_true]

/-- C28: in every state reachable from startup a non-empty `WRITE_QUEUE`
implies that `isProcessingQueue` is true, and a true `isProcessingQueue`
implies that a worker loop is suspended; and the loop head clears
`isProcessingQueue` only when `WRITE_QUEUE` is empty. -/
theorem queued_jobs_have_worker (es : List Event) (s : State)
    (hrun : run startup es = some s) :
    (s.WRITE_QUEUE ≠ [] → s.isProcessingQueue = true) ∧
    (s.isProcessingQueue = true → s.worker ≠ WorkerPc.idle) ∧
    (∀ t : State, t.isProcessingQueue = true → (workerLoop t).isProcessingQueue = false →
      t.WRITE_QUEUE = [] ∧ (workerLoop t).WRITE_QUEUE = []) := by
  have hinv := run_inv es startup s startup_inv hrun
  refine ⟨fun hne => ?_, hinv.2, fun t ht hclear => ?_⟩
  · by_cases hb : s.isProcessingQueue = true
    · exact hb
    · exact absurd (hinv.1 (by simpa using hb)).1 hne
  · unfold workerLoop at hclear ⊢
    cases hq : t.WRITE_QUEUE with
    | nil => simp [hq]
    | cons j rest =>
      rw [hq] at hclear
      have hc : t.isProcessingQueue = false := hclear
      rw [ht] at hc
      cases hc

/-- An instance of C28: two writes during the startup cycle. -/
theorem queued_jobs_have_worker_witness :
    ∃ s job1 job2, run startup [addT1, addT2] = some s ∧
      s.WRITE_QUEUE = [job2] ∧ s.isProcessingQueue = true ∧
      s.worker = WorkerPc.remoteOp job1 ∧ s.worker ≠ WorkerPc.idle :=
  ⟨_, _, _, rfl, rfl,
    (queued_jobs_have_worker [addT1, addT2] _ rfl).1 (by decide), rfl,
    (queued_jobs_have_worker [addT1, addT2] _ rfl).2.1 rfl⟩

theorem DBStore.get_none (db : DBStore) (sheet : String)
    (h : sheet ∉ ["Users", "Stations", "Tasks", "Groups"]) : db.get sheet = none := by
  simp only [List.mem_cons, List.mem_singleton, List.not_mem_nil, or_false, not_or] at h
  obtain ⟨h1, h2, h3, h4⟩ := h
  simp [DBStore.get, h1, h2, h3, h4]

/-- C30: for a sheet name other than Users, Stations, Tasks and Groups and
each of the types ADD, UPDATE and DELETE, `queueJob` raises a TypeError; the
route handler that called it ends there with `DB`, `WRITE_QUEUE`, the worker
and `isProcessingQueue` as they were: no job is enqueued, none is popped, no
worker is started. -/
theorem queueJob_unknown_sheet (s : State) (type sheet : String) (data : Option Ref)
    (payload : Option Obj) (keyField keyValue : Val)
    (hsheet : sheet ∉ ["Users", "Stations", "Tasks", "Groups"])
    (htype : type = "ADD" ∨ type = "UPDATE" ∨ type = "DELETE") :
    queueJob s type sheet data keyField keyValue = Except.error JsError.typeError ∧
    queueJobPush s type sheet data keyField keyValue = [] ∧
    queueJobShift s type sheet data keyField keyValue = [] ∧
    (callQueueJob s type sheet payload keyField keyValue).DB = s.DB ∧
    (callQueueJob s type sheet payload keyField keyValue).WRITE_QUEUE = s.WRITE_QUEUE ∧
    (callQueueJob s type sheet payload keyField keyValue).worker = s.worker ∧
    (callQueueJob s type sheet payload keyField keyValue).isProcessingQueue
      = s.isProcessingQueue := by
  have hram : ∀ (t : State) (d : Option Ref),
      updateRam t type sheet d keyField keyValue = Except.error JsError.typeError := by
    intro t d
    have hnone := DBStore.get_none t.DB sheet hsheet
    have h1 : ¬ ("UPDATE" = "ADD") := by decide
    have h2 : ¬ ("DELETE" = "ADD") := by decide
    have h3 : ¬ ("DELETE" = "UPDATE") := by decide
    rcases htype with h | h | h <;> subst h <;>
      simp only [updateRam, hnone, h1, h2, h3, if_true, if_false]
  have hq : ∀ (t : State) (d : Option Ref),
      queueJob t type sheet d keyField keyValue = Except.error JsError.typeError := by
    intro t d
    simp only [queueJob, hram t d]
  refine ⟨hq s data, ?_, ?_, ?_, ?_, ?_, ?_⟩
  · simp only [queueJobPush, hram s data]
  · simp only [queueJobShift, hram s data]
  all_goals
    rw [callQueueJob_eq]
    simp only [hq]
    cases payload <;> rfl

/-- An instance of C30: a DELETE on the sheet name Reports. -/
theorem queueJob_unknown_sheet_witness :
    ("Reports" ∉ ["Users", "Stations", "Tasks", "Groups"] ∧
      ("DELETE" = "ADD" ∨ "DELETE" = "UPDATE" ∨ "DELETE" = "DELETE")) ∧
    queueJob sampleTasks "DELETE" "Reports" none (Val.str "ReportID") (Val.str "R1")
      = Except.error JsError.typeError ∧
    (callQueueJob sampleTasks "DELETE" "Reports" none (Val.str "ReportID") (Val.str "R1")).DB
      = sampleTasks.DB ∧
    (callQueueJob sampleTasks "DELETE" "Reports" none (Val.str "ReportID")
      (Val.str "R1")).WRITE_QUEUE = sampleTasks.WRITE_QUEUE :=
  ⟨⟨by decide, Or.inr (Or.inr rfl)⟩,
    (queueJob_unknown_sheet sampleTasks "DELETE" "Reports" none none (Val.str "ReportID")
      (Val.str "R1") (by decide) (Or.inr (Or.inr rfl))).1,
    (queueJob_unknown_sheet sampleTasks "DELETE" "Reports" none none (Val.str "ReportID")
      (Val.str "R1") (by decide) (Or.inr (Or.inr rfl))).2.2.2.1,
    (queueJob_unknown_sheet sampleTasks "DELETE" "Reports" none none (Val.str "ReportID")
      (Val.str "R1") (by decide) (Or.inr (Or.inr rfl))).2.2.2.2.1⟩

/-! ## Conversion of a row -/

theorem cellOr_eq (row : Row) (j : Nat) : cellOr row j = (row.get? j).getD "" := by
  unfold cellOr
  cases row.get? j with
  | none => rfl
  | some c => by_cases hc : c = "" <;> simp [hc]

/-- The object built from a row under headers without duplicates. -/
theorem foldl_setProp_enumFrom (row : Row) (l : List String) :
    ∀ (n : Nat) (obj : Obj) (k : String), l.Nodup →
      ((l.enumFrom n).foldl
        (fun obj (p : Nat × String) => setProp obj p.2 (Val.str (cellOr row p.1))) obj) k
        = if k ∈ l then some (Val.str (cellOr row (n + l.indexOf k))) else obj k := by
  induction l with
  | nil => intro n obj k _; simp
  | cons a t ih =>
    intro n obj k hnd
    have hat : a ∉ t := (List.nodup_cons.mp hnd).1
    have ht : t.Nodup := (List.nodup_cons.mp hnd).2
    simp only [List.enumFrom_cons, List.foldl_cons]
    rw [ih (n + 1) _ k ht]
    by_cases hka : k = a
    · subst hka
      simp [hat, setProp]
    · by_cases hkt : k ∈ t
      · have hidx : List.indexOf k (a :: t) = List.indexOf k t + 1 := by
          rw [List.indexOf_cons_ne _ (Ne.symm hka)]
        simp only [hkt, if_true, List.mem_cons, or_true, hidx]
        have e : n + 1 + List.indexOf k t = n + (List.indexOf k t + 1) := by omega
        rw [e]
      · simp [hkt, hka, setProp]

theorem rowObject_apply (row : Row) (headers : List String) (k : String) (hnd : headers.Nodup) :
    (headers.enum.foldl
      (fun obj (p : Nat × String) => setProp obj p.2 (Val.str (cellOr row p.1))) emptyObj) k
      = if k ∈ headers then some (Val.str (cellOr row (headers.indexOf k))) else none := by
  have h := foldl_setProp_enumFrom row headers 0 emptyObj k hnd
  simp only [Nat.zero_add] at h
  exact h

theorem arrayToObjects_data (values : List Row) (headers : List String)
    (hn : 2 ≤ values.length) :
    arrayToObjects (some values) headers
      = (values.drop 1).map fun row =>
          headers.enum.foldl
            (fun obj (p : Nat × String) => setProp obj p.2 (Val.str (cellOr row p.1)))
            emptyObj := by
  have h : ¬ (values.length < 2) := by omega
  simp only [arrayToObjects, h, if_false]

/-- C24 fails as stated: with the header A at positions 0 and 1 the record of
the data row x, y maps A to y, the cell at position 1, and not to x, the cell
at position 0. -/
theorem arrayToObjects_duplicate_header :
    (arrayToObjects (some twiceA) ["A", "A"]).map (fun o => getProp o "A") = [Val.str "y"] ∧
    twiceA.get? 1 = some ["x", "y"] ∧
    (["A", "A"] : List String).get? 0 = some "A" ∧
    (["x", "y"] : Row).get? 0 = some "x" := by
  refine ⟨by decide, rfl, rfl, rfl⟩

/-- C24 (amended): for every grid with n ≥ 2 rows and every header list
without duplicates, `arrayToObjects` returns exactly n - 1 records, record i
being built from row i + 1 (row 0 is skipped, the order is kept); in each
record the header at position j maps to that row's cell at position j, or to
the empty string when the row has no cell there, and the record has no other
property (cells beyond the last header are dropped). -/
theorem arrayToObjects_rows (values : List Row) (headers : List String)
    (hn : 2 ≤ values.length) (hnd : headers.Nodup) :
    (arrayToObjects (some values) headers).length = values.length - 1 ∧
    ∀ i row, values.get? (i + 1) = some row →
      ∃ o, (arrayToObjects (some values) headers).get? i = some o ∧
        (∀ j h, headers.get? j = some h → o h = some (Val.str ((row.get? j).getD ""))) ∧
        (∀ k, k ∉ headers → o k = none) := by
  rw [arrayToObjects_data values headers hn]
  refine ⟨by simp, ?_⟩
  intro i row hrow
  have hget : (values.drop 1).get? i = some row := by
    rw [List.get?_eq_getElem?, List.getElem?_drop, Nat.add_comm, ← List.get?_eq_getElem?]
    exact hrow
  refine ⟨headers.enum.foldl
      (fun obj (p : Nat × String) => setProp obj p.2 (Val.str (cellOr row p.1))) emptyObj,
    ?_, ?_, ?_⟩
  · rw [List.get?_eq_getElem?, List.getElem?_map, ← List.get?_eq_getElem?, hget]
    rfl
  · intro j h hj
    have hmem : h ∈ headers := List.get?_mem hj
    have hidx : headers.indexOf h = j := by
      have hlt : j < headers.length := by
        rw [List.get?_eq_getElem?] at hj
        exact (List.getElem?_eq_some_iff.mp hj).1
      have hjh : headers[j] = h := by
        rw [List.get?_eq_getElem?] at hj
        exact (List.getElem?_eq_some_iff.mp hj).2
      rw [← hjh]
      exact List.indexOf_getElem hnd j hlt
    rw [rowObject_apply row headers h hnd, if_pos hmem, hidx, cellOr_eq]
  · intro k hk
    rw [rowObject_apply row headers k hnd, if_neg hk]

/-- An instance of the amended C24: the Stations grid with one short data row. -/
theorem arrayToObjects_rows_witness :
    (2 ≤ [stationsHeaders, ["North"]].length ∧ stationsHeaders.Nodup) ∧
    (arrayToObjects (some [stationsHeaders, ["North"]]) stationsHeaders).length = 1 ∧
    ∃ o, (arrayToObjects (some [stationsHeaders, ["North"]]) stationsHeaders).get? 0 = some o ∧
      o "Subdivision" = some (Val.str "North") ∧ o "Stations" = some (Val.str "") ∧
      o "Name" = none := by
  have h1 : 2 ≤ [stationsHeaders, ["North"]].length := by decide
  have h2 : stationsHeaders.Nodup := by decide
  refine ⟨⟨h1, h2⟩, (arrayToObjects_rows _ _ h1 h2).1, ?_⟩
  obtain ⟨o, ho, hcells, hdrop⟩ := (arrayToObjects_rows _ _ h1 h2).2 0 ["North"] rfl
  exact ⟨o, ho, hcells 0 "Subdivision" rfl, hcells 1 "Stations" rfl, hdrop "Name" (by decide)⟩

/-- A row holding a record's values in header order, possibly without trailing
empty cells, converts back to the record. -/
theorem rowObject_recordRow (headers : List String) (o : Obj) (row : Row) (n : Nat)
    (hnd : headers.Nodup)
    (hrec : ∀ k, (k ∈ headers → ∃ c, o k = some (Val.str c)) ∧ (k ∉ headers → o k = none))
    (hrow : row = (recordRow headers o).take n)
    (hempty : ∀ c ∈ (recordRow headers o).drop n, c = "") :
    headers.enum.foldl
      (fun obj (p : Nat × String) => setProp obj p.2 (Val.str (cellOr row p.1))) emptyObj
      = o := by
  funext k
  rw [rowObject_apply row headers k hnd]
  by_cases hk : k ∈ headers
  · rw [if_pos hk]
    obtain ⟨c, hc⟩ := (hrec k).1 hk
    rw [hc]
    have hlt : headers.indexOf k < headers.length := List.indexOf_lt_length.mpr hk
    have hfull : (recordRow headers o)[headers.indexOf k]? = some c := by
      unfold recordRow
      rw [List.getElem?_map, List.getElem?_eq_getElem hlt]
      simp [List.getElem_indexOf hlt, getProp, hc, cellOfVal]
    have hcell : cellOr row (headers.indexOf k) = c := by
      rw [cellOr_eq, hrow, List.get?_eq_getElem?]
      by_cases hin : headers.indexOf k < n
      · rw [List.getElem?_take_of_lt hin, hfull]
        rfl
      · have hge : n ≤ headers.indexOf k := Nat.le_of_not_lt hin
        have hnone : ((recordRow headers o).take n)[headers.indexOf k]? = none := by
          rw [List.getElem?_eq_none_iff]
          exact Nat.le_trans (List.length_take_le _ _) hge
        rw [hnone]
        have hdrop : ((recordRow headers o).drop n)[headers.indexOf k - n]? = some c := by
          rw [List.getElem?_drop]
          have e : n + (headers.indexOf k - n) = headers.indexOf k := by omega
          rw [e]
          exact hfull
        exact (hempty c (List.getElem?_mem hdrop)).symm
    rw [hcell]
  · rw [if_neg hk, (hrec k).2 hk]

/-- C29: for a header list without duplicates and records whose properties are
exactly those headers with string values, `arrayToObjects` applied to the grid
made of the header row followed, for each record, by its values in header
order, returns the original list of records; and so it does when any data row
lacks trailing cells that are empty. -/
theorem arrayToObjects_roundtrip (headers : List String) (records : List Obj)
    (rows : List Row) (hnd : headers.Nodup)
    (hrec : ∀ o ∈ records, ∀ k,
      (k ∈ headers → ∃ c, o k = some (Val.str c)) ∧ (k ∉ headers → o k = none))
    (hrows : List.Forall₂
      (fun o row => ∃ n, row = (recordRow headers o).take n ∧
        ∀ c ∈ (recordRow headers o).drop n, c = "") records rows) :
    arrayToObjects (some (headers :: rows)) headers = records := by
  have hmap : rows.map (fun row =>
      headers.enum.foldl
        (fun obj (p : Nat × String) => setProp obj p.2 (Val.str (cellOr row p.1))) emptyObj)
      = records := by
    induction hrows with
    | nil => rfl
    | @cons o row os rs hor _ ih =>
      obtain ⟨n, hrow, hempty⟩ := hor
      rw [List.map_cons,
        rowObject_recordRow headers o row n hnd (hrec o (List.mem_cons_self _ _)) hrow hempty,
        ih (fun o' ho' => hrec o' (List.mem_cons_of_mem _ ho'))]
  cases rows with
  | nil =>
    cases hrows
    rfl
  | cons r rs =>
    rw [arrayToObjects_data _ _ (by simp)]
    exact hmap

/-- An instance of C29: a Stations record with an empty last value, its row
given without the trailing empty cell. -/
theorem arrayToObjects_roundtrip_witness :
    (stationsHeaders.Nodup ∧
      (∀ o ∈ [northStation], ∀ k,
        (k ∈ stationsHeaders → ∃ c, o k = some (Val.str c)) ∧
        (k ∉ stationsHeaders → o k = none)) ∧
      List.Forall₂
        (fun o row => ∃ n, row = (recordRow stationsHeaders o).take n ∧
          ∀ c ∈ (recordRow stationsHeaders o).drop n, c = "") [northStation] [["North"]]) ∧
    arrayToObjects (some (stationsHeaders :: [["North"]])) stationsHeaders = [northStation] := by
  have h1 : stationsHeaders.Nodup := by decide
  have h2 : ∀ o ∈ [northStation], ∀ k,
      (k ∈ stationsHeaders → ∃ c, o k = some (Val.str c)) ∧
      (k ∉ stationsHeaders → o k = none) := by
    intro o ho k
    rw [List.mem_singleton] at ho
    subst ho
    constructor
    · intro hk
      simp only [stationsHeaders, List.mem_cons, List.mem_singleton, List.not_mem_nil,
        or_false] at hk
      rcases hk with hk | hk
      · subst hk; exact ⟨"North", by decide⟩
      · subst hk; exact ⟨"", by decide⟩
    · intro hk
      simp only [stationsHeaders, List.mem_cons, List.mem_singleton, List.not_mem_nil,
        or_false, not_or] at hk
      simp [northStation, objLit, setProp, emptyObj, hk.1, hk.2]
  have h3 : List.Forall₂
      (fun o row => ∃ n, row = (recordRow stationsHeaders o).take n ∧
        ∀ c ∈ (recordRow stationsHeaders o).drop n, c = "") [northStation] [["North"]] :=
    List.Forall₂.cons ⟨1, by decide, by decide⟩ List.Forall₂.nil
  exact ⟨⟨h1, h2, h3⟩, arrayToObjects_roundtrip stationsHeaders [northStation] [["North"]] h1 h2 h3⟩

/-! ## Claims on `getSheet` and on row selection -/

theorem firstIndex_some_iff {α : Type} (p : α → Bool) (l : List α) :
    ∀ i, firstIndex p l = some i ↔
      (∃ a, l.get? i = some a ∧ p a = true) ∧
      ∀ j a, j < i → l.get? j = some a → p a = false := by
  induction l with
  | nil =>
    intro i
    simp [firstIndex]
  | cons x t ih =>
    intro i
    by_cases hx : p x = true
    · simp only [firstIndex, hx, if_true, Option.some.injEq]
      constructor
      · intro h
        subst h
        exact ⟨⟨x, rfl, hx⟩, fun j a hj => absurd hj (Nat.not_lt_zero j)⟩
      · rintro ⟨_, hall⟩
        cases i with
        | zero => rfl
        | succ n =>
          have := hall 0 x (Nat.succ_pos n) rfl
          rw [hx] at this
          cases this
    · have hx' : p x = false := by simpa using hx
      simp only [firstIndex, hx', Bool.false_eq_true, if_false, Option.map_eq_some']
      constructor
      · rintro ⟨n, hn, rfl⟩
        obtain ⟨⟨a, ha, hpa⟩, hall⟩ := (ih n).mp hn
        refine ⟨⟨a, by simpa using ha, hpa⟩, ?_⟩
        intro j b hj hb
        cases j with
        | zero =>
          simp at hb
          subst hb
          exact hx'
        | succ m => exact hall m b (Nat.lt_of_succ_lt_succ hj) (by simpa using hb)
      · rintro ⟨⟨a, ha, hpa⟩, hall⟩
        cases i with
        | zero =>
          simp at ha
          subst ha
          rw [hx'] at hpa
          cases hpa
        | succ n =>
          refine ⟨n, (ih n).mpr ⟨⟨a, by simpa using ha, hpa⟩, ?_⟩, rfl⟩
          intro j b hj hb
          exact hall (j + 1) b (Nat.succ_lt_succ hj) (by simpa using hb)

theorem firstIndex_none_iff {α : Type} (p : α → Bool) (l : List α) :
    firstIndex p l = none ↔ ∀ a ∈ l, p a = false := by
  constructor
  · intro h a ha
    by_contra hpa
    have hpa' : p a = true := by simpa using hpa
    induction l with
    | nil => cases ha
    | cons x t ih =>
      by_cases hx : p x = true
      · simp [firstIndex, hx] at h
      · have hx' : p x = false := by simpa using hx
        simp only [firstIndex, hx', Bool.false_eq_true, if_false, Option.map_eq_none'] at h
        rcases List.mem_cons.mp ha with hax | hat
        · subst hax
          rw [hx'] at hpa'
          cases hpa'
        · exact ih h hat
  · exact firstIndex_none p l

/-- C25: once the metadata is loaded, `getSheet(title, headers)` returns the
first sheet, in index order, whose title equals the requested title ignoring
letter case, and then creates nothing (the document is unchanged and
`doc.addSheet` is not called); when no title matches and the creation
succeeds it returns a sheet created with exactly that title and those headers,
`doc.addSheet` being called once with them. -/
theorem getSheet_finds_or_creates (doc : Doc) (title : String) (headers : List String)
    (env : SheetEnv) (hload : env.firstLoadOk = true ∨ env.secondLoadOk = true) :
    (∀ i sh, doc.get? i = some sh → toLowerCase sh.title = toLowerCase title →
      (∀ j sh', j < i → doc.get? j = some sh' → toLowerCase sh'.title ≠ toLowerCase title) →
      getSheet doc title headers env = Except.ok (doc, i) ∧
      ∀ t hs, SheetCall.addSheet t hs ∉ getSheetCalls doc title headers env) ∧
    ((∀ sh ∈ doc, toLowerCase sh.title ≠ toLowerCase title) → env.addSheetOk = true →
      getSheet doc title headers env
        = Except.ok (doc ++ [{ title := title, headerValues := headers, rows := [] }],
            doc.length) ∧
      (doc ++ [({ title := title, headerValues := headers, rows := [] } : Sheet)]).get?
          doc.length
        = some ({ title := title, headerValues := headers, rows := [] } : Sheet) ∧
      (getSheetCalls doc title headers env).filter
          (fun c => decide (c ≠ SheetCall.loadInfo ∧ c ≠ SheetCall.wait))
        = [SheetCall.addSheet title headers]) := by
  have hnot : ¬ (env.firstLoadOk = false ∧ env.secondLoadOk = false) := by
    rintro ⟨h1, h2⟩
    rcases hload with h | h
    · rw [h1] at h; cases h
    · rw [h2] at h; cases h
  constructor
  · intro i sh hget hmatch hfirst
    have hfi : firstIndex (fun s => decide (toLowerCase s.title = toLowerCase title)) doc
        = some i := by
      rw [firstIndex_some_iff]
      exact ⟨⟨sh, hget, decide_eq_true hmatch⟩,
        fun j a hj ha => decide_eq_false (hfirst j a hj ha)⟩
    refine ⟨by simp only [getSheet, hnot, if_false, hfi], ?_⟩
    intro t hs hmem
    simp only [getSheetCalls, hnot, if_false, hfi] at hmem
    split_ifs at hmem <;> simp at hmem
  · intro hnone hadd
    have hfi : firstIndex (fun s => decide (toLowerCase s.title = toLowerCase title)) doc
        = none :=
      firstIndex_none _ _ fun a ha => decide_eq_false (hnone a ha)
    refine ⟨by simp only [getSheet, hnot, if_false, hfi, hadd, if_true], by simp, ?_⟩
    simp only [getSheetCalls, hnot, if_false, hfi]
    split_ifs <;> simp [List.filter]

/-- An instance of C25: the title tasks finds the sheet Tasks; the title
Groups finds none and creates it. -/
theorem getSheet_finds_or_creates_witness :
    (SheetEnv.allOk.firstLoadOk = true ∨ SheetEnv.allOk.secondLoadOk = true) ∧
    getSheet tasksDoc "tasks" tasksHeaders SheetEnv.allOk = Except.ok (tasksDoc, 0) ∧
    getSheet tasksDoc "Groups" groupsHeaders SheetEnv.allOk
      = Except.ok (tasksDoc ++ [{ title := "Groups", headerValues := groupsHeaders, rows := [] }],
          1) :=
  ⟨Or.inl rfl,
    ((getSheet_finds_or_creates tasksDoc "tasks" tasksHeaders SheetEnv.allOk (Or.inl rfl)).1 0
      { title := "Tasks", headerValues := ["TaskID", "Status"], rows := [] } rfl (by decide)
      (fun j _ hj => absurd hj (Nat.not_lt_zero j))).1,
    ((getSheet_finds_or_creates tasksDoc "Groups" groupsHeaders SheetEnv.allOk (Or.inl rfl)).2
      (by decide) rfl).1⟩

/-- C26: when the first `doc.loadInfo()` fails and the retry succeeds,
`getSheet` gives the result it gives when the first load succeeds, having
awaited `loadInfo`, the timer and `loadInfo` once more; `getSheet` never loads
more than twice, and it ends in an error, returned to its caller, exactly when
both loads fail or no title matches and the creation fails. -/
theorem getSheet_retries_once (doc : Doc) (title : String) (headers : List String)
    (env : SheetEnv) :
    (env.firstLoadOk = false → env.secondLoadOk = true →
      getSheet doc title headers env
        = getSheet doc title headers { env with firstLoadOk := true } ∧
      (getSheetCalls doc title headers env).take 3
        = [SheetCall.loadInfo, SheetCall.wait, SheetCall.loadInfo]) ∧
    ((getSheetCalls doc title headers env).count SheetCall.loadInfo
      = if env.firstLoadOk = true then 1 else 2) ∧
    ((∃ e, getSheet doc title headers env = Except.error e) ↔
      (env.firstLoadOk = false ∧ env.secondLoadOk = false) ∨
      ((env.firstLoadOk = true ∨ env.secondLoadOk = true) ∧
        (∀ sh ∈ doc, toLowerCase sh.title ≠ toLowerCase title) ∧ env.addSheetOk = false)) := by
  obtain ⟨l1, l2, a⟩ := env
  refine ⟨?_, ?_, ?_⟩
  · intro h1 h2
    simp only at h1 h2
    subst h1 h2
    constructor
    · simp [getSheet]
    · simp only [getSheetCalls]
      cases firstIndex (fun s => decide (toLowerCase s.title = toLowerCase title)) doc <;> simp
  · simp only [getSheetCalls]
    cases l1 <;> cases l2 <;>
      cases firstIndex (fun s => decide (toLowerCase s.title = toLowerCase title)) doc <;>
      simp [List.count_cons, List.count_nil]
  · cases hfi : firstIndex (fun s => decide (toLowerCase s.title = toLowerCase title)) doc with
    | none =>
      have hnone : ∀ sh ∈ doc, ¬ toLowerCase sh.title = toLowerCase title := by
        intro sh hsh
        have := (firstIndex_none_iff _ _).mp hfi sh hsh
        simpa using this
      cases l1 <;> cases l2 <;> cases a <;> simp [getSheet, hfi] <;> exact hnone
    | some i =>
      have hsome : ¬ ∀ sh ∈ doc, ¬ toLowerCase sh.title = toLowerCase title := by
        intro hall
        have := firstIndex_none _ _ fun a ha => decide_eq_false (hall a ha)
        rw [hfi] at this
        cases this
      cases l1 <;> cases l2 <;> cases a <;> simp [getSheet, hfi] <;>
        exact not_forall_not.mp (by simpa using hsome)

/-- The client never yields `null` for a cell. -/
theorem rowGet_ne_null (headers : List String) (row : Row) (key : Val) :
    rowGet headers row key ≠ Val.null := by
  unfold rowGet
  cases key with
  | str k =>
    simp only
    split_ifs
    · cases row.get? (headers.indexOf k) <;> simp
    · simp
  | undefined => simp
  | null => simp

/-- The row the `UPDATE` branch of `replayJob` looks for is `updateRowIndex`
over the cells of the client. -/
theorem replay_update_index (headers : List String) (keyField keyValue : Val)
    (rows : List Row) :
    firstIndex (fun r => decide (rowGet headers r keyField = keyValue)) rows
      = updateRowIndex (fun r => rowGet headers r keyField) keyValue rows := rfl

/-- The row the `DELETE` branch of `replayJob` looks for is `deleteRowIndex`
over the cells of the client. -/
theorem replay_delete_index (headers : List String) (keyField keyValue : Val)
    (rows : List Row) :
    firstIndex (fun r =>
        decide (rowGet headers r keyField ≠ Val.undefined ∧
          rowGet headers r keyField ≠ Val.str "" ∧
          rowGet headers r keyField = keyValue)) rows
      = deleteRowIndex (fun r => rowGet headers r keyField) keyValue rows := by
  unfold deleteRowIndex
  congr 1
  funext r
  have hnull := rowGet_ne_null headers r keyField
  cases hget : rowGet headers r keyField with
  | undefined => simp [jsTruthy, hget]
  | null => exact absurd hget hnull
  | str c => simp [jsTruthy, hget]

/-- With a non-empty string as key value the callback of `DELETE` and the
callback of `UPDATE` accept the same rows. -/
theorem delete_pred_eq_update_pred (get : Row → Val) (kv : String) (hkv : kv ≠ "") (r : Row) :
    (jsTruthy (get r) && decide (get r = Val.str kv)) = decide (get r = Val.str kv) := by
  cases hget : get r with
  | undefined => simp [jsTruthy, hget]
  | null => simp [jsTruthy, hget]
  | str c =>
    by_cases hc : c = kv
    · subst hc
      simp [jsTruthy, hget, hkv]
    · simp [jsTruthy, hget, hc]

/-- The statement of C27 fails for the empty key value: among `blankKeyRows`
the callback of `UPDATE` selects row 0, whose `TaskID` cell is the empty
string, and the callback of `DELETE` selects no row, so that the replay of
`blankDeleteJob` leaves the document as it is while the replay of
`blankUpdateJob` assigns its payload to row 0. -/
theorem replay_blank_key_differs :
    updateRowIndex (fun r => rowGet ["TaskID", "Status"] r (Val.str "TaskID")) (Val.str "")
      blankKeyRows = some 0 ∧
    deleteRowIndex (fun r => rowGet ["TaskID", "Status"] r (Val.str "TaskID")) (Val.str "")
      blankKeyRows = none ∧
    replayJob blankKeyDoc doneHeap blankDeleteJob = Except.ok blankKeyDoc ∧
    replayJob blankKeyDoc doneHeap blankUpdateJob = Except.ok blankKeyDocDone :=
  ⟨by decide, by decide, rfl, rfl⟩

/-- C27, amended: for every list of rows, every way of reading the key cell
and every key value that is a non-empty string, the `DELETE` replay and the
`UPDATE` replay select the same row: the first row whose key cell is exactly
equal to the key value, and no row when there is none. -/
theorem replay_same_row (get : Row → Val) (kv : String) (rows : List Row) (hkv : kv ≠ "") :
    deleteRowIndex get (Val.str kv) rows = updateRowIndex get (Val.str kv) rows ∧
    (∀ i, updateRowIndex get (Val.str kv) rows = some i ↔
      (∃ r, rows.get? i = some r ∧ get r = Val.str kv) ∧
      ∀ j r, j < i → rows.get? j = some r → get r ≠ Val.str kv) ∧
    (updateRowIndex get (Val.str kv) rows = none ↔ ∀ r ∈ rows, get r ≠ Val.str kv) := by
  refine ⟨?_, ?_, ?_⟩
  · unfold deleteRowIndex updateRowIndex
    congr 1
    funext r
    exact delete_pred_eq_update_pred get kv hkv r
  · intro i
    unfold updateRowIndex
    rw [firstIndex_some_iff]
    simp
  · unfold updateRowIndex
    rw [firstIndex_none_iff]
    simp

/-- An instance of C27: with the key value T1 both replays select row 1 of
`blankKeyRows`. -/
theorem replay_same_row_witness :
    "T1" ≠ "" ∧
    deleteRowIndex (fun r => rowGet ["TaskID", "Status"] r (Val.str "TaskID")) (Val.str "T1")
      blankKeyRows = some 1 ∧
    updateRowIndex (fun r => rowGet ["TaskID", "Status"] r (Val.str "TaskID")) (Val.str "T1")
      blankKeyRows = some 1 :=
  ⟨by decide,
    (replay_same_row (fun r => rowGet ["TaskID", "Status"] r (Val.str "TaskID")) "T1"
      blankKeyRows (by decide)).1.trans (by decide),
    by decide⟩

/-! ## Instances of the claims on `waitForDb`, `syncDatabase` and `getSheet` -/

/-- An instance of C21: a guarded request arriving right after startup waits on
the promise stored at startup and starts no cycle; on an engine whose promise
is still unset it starts the cycle and stores its promise. -/
theorem waitForDb_cases_witness :
    serverStartup.core.isDbReady = false ∧
    (waitForDb serverStartup).waiting = 1 ∧
    (waitForDb serverStartup).core.bulkReads = serverStartup.core.bulkReads ∧
    (waitForDb { core := initial, waiting := 0, nextCalls := [] }).core.dbReadyPromise ≠ none :=
  ⟨rfl,
    (congrArg Server.waiting ((waitForDb_cases serverStartup).2.1 rfl _ rfl)).trans rfl,
    (congrArg (fun v => v.core.bulkReads)
      ((waitForDb_cases serverStartup).2.1 rfl _ rfl)).trans rfl,
    ((waitForDb_cases { core := initial, waiting := 0, nextCalls := [] }).2.2.1 rfl rfl).2⟩

/-- An instance of C22: the startup cycle passes the guard with `isSyncing`
true, and both its failure and its success on the header-only response leave
`isSyncing` false. -/
theorem syncResume_clears_isSyncing_witness :
    (syncDatabase initial).1.isSyncing = true ∧
    (syncResume startup (Except.error JsError.remoteError)).isSyncing = false ∧
    (syncResume startup (Except.ok headerOnlyResponse)).isSyncing = false :=
  ⟨(syncResume_clears_isSyncing initial (Except.ok headerOnlyResponse)).2.2 rfl rfl,
    (syncResume_clears_isSyncing startup (Except.error JsError.remoteError)).1,
    (syncResume_clears_isSyncing startup (Except.ok headerOnlyResponse)).1⟩

/-- An instance of C23: a grid holding a header row only yields no record. -/
theorem arrayToObjects_no_data_witness :
    ([["TaskID", "Status"]] : List Row).length < 2 ∧
    arrayToObjects (some [["TaskID", "Status"]]) tasksHeaders = [] :=
  ⟨by decide, (arrayToObjects_no_data tasksHeaders).2 [["TaskID", "Status"]] (by decide)⟩

/-- An instance of C26: the first load fails, the retry succeeds, and the sheet
Tasks is found as in a run without failure. -/
theorem getSheet_retries_once_witness :
    getSheet tasksDoc "tasks" tasksHeaders
        { firstLoadOk := false, secondLoadOk := true, addSheetOk := true }
      = Except.ok (tasksDoc, 0) ∧
    getSheetCalls tasksDoc "tasks" tasksHeaders
        { firstLoadOk := false, secondLoadOk := true, addSheetOk := true }
      = [SheetCall.loadInfo, SheetCall.wait, SheetCall.loadInfo] ∧
    ∃ e, getSheet tasksDoc "tasks" tasksHeaders
        { firstLoadOk := false, secondLoadOk := false, addSheetOk := true } = Except.error e :=
  ⟨((getSheet_retries_once tasksDoc "tasks" tasksHeaders
        { firstLoadOk := false, secondLoadOk := true, addSheetOk := true }).1 rfl rfl).1.trans rfl,
    by decide,
    (getSheet_retries_once tasksDoc "tasks" tasksHeaders
        { firstLoadOk := false, secondLoadOk := false, addSheetOk := true }).2.2.mpr
      (Or.inl ⟨rfl, rfl⟩)⟩

end HybridServer
